import Mathlib

/-!
# KUNAI DEX parser: string pool and prototype pool

A shallow embedding of `src/DEX/parser/dex_strings.cpp` and
`src/DEX/parser/dex_protos.cpp`.

* The `std::ifstream` is a record of the file bytes, the cursor and the list of
  operations performed on it so far (so that "no read happened" can be stated).
* `std::map<K, V>` is a list of key/value pairs kept in ascending key order;
  iteration order is list order.
* `std::vector<T>` is a list; `push_back` appends at the end.
* A `std::string*` / `Type*` is an `Option`: `none` is `nullptr`.
* A `throw` is the `.error` side of an `Except`; a `bool` return is `.ok b`.
-/

namespace KUNAI
namespace DEX

/-! ## Exceptions -/

/-- The exception classes thrown by the two parsers, each with its message. -/
inductive DexError where
  | ParserReadingException (msg : String)
  | OutOfBoundException (msg : String)
  | IncorrectStringId (msg : String)
  | IncorrectTypeId (msg : String)
  deriving DecidableEq, Repr

/-! ## The byte source -/

/-- One operation performed on the stream: a `seekg` to an absolute position, or
a `read` of `width` bytes attempted at position `pos`. -/
inductive StreamEvent where
  | seek (target : Nat)
  | read (pos width : Nat)
  deriving DecidableEq, Repr

/-- The shared `std::ifstream`: file contents, cursor, and the operations
performed so far (oldest first). -/
structure IFStream where
  bytes : List Nat
  pos : Nat
  trace : List StreamEvent
  deriving DecidableEq, Repr

/-- Function `input_file.tellg()`. -/
def IFStream.tellg (f : IFStream) : Nat := f.pos

/-- Function `input_file.seekg(target)`: seeking past the end is not an error. -/
def IFStream.seekg (f : IFStream) (target : Nat) : IFStream :=
  { f with pos := target, trace := f.trace ++ [StreamEvent.seek target] }

/-- Little-endian value of a run of bytes (each byte reduced to 8 bits). -/
def le_value : List Nat → Nat
  | [] => 0
  | b :: rest => b % 256 + 256 * le_value rest

/-- The `size`-byte little-endian field at absolute position `pos`, when all of
its bytes lie inside the file. -/
def read_at (bytes : List Nat) (pos size : Nat) : Option Nat :=
  if pos + size ≤ bytes.length then some (le_value ((bytes.drop pos).take size)) else none

/-- Modelled from the spec: `KUNAI::read_data_file<T>` lives in the utilities
header, which is not among the sources. Section 4.1 (Bounded Reader) fixes its
contract: a fixed-width little-endian read at the cursor that either yields the
value and advances the cursor by the width, or fails because the source ended
first. A failed read is taken to leave the cursor where the read was attempted. -/
def read_data_file (size : Nat) (f : IFStream) : Option Nat × IFStream :=
  match read_at f.bytes f.pos size with
  | some v => (some v, { f with pos := f.pos + size, trace := f.trace ++ [StreamEvent.read f.pos size] })
  | none => (none, { f with trace := f.trace ++ [StreamEvent.read f.pos size] })

/-! ## `std::map` with integer keys -/

/-- Modelled from the spec: the headers that declare the members `strings`,
`shorty_idx`, `return_type_idx` and `parameters` are not among the sources. The
member functions use them through `find`, `insert`, `operator[]`, `size` and
iteration, and section 9 describes them as key-sorted associative maps, that is
`std::map` with an integer key: key/value pairs in ascending key order. -/
abbrev StdMap (β : Type) := List (Nat × β)

/-- Lookup `m.find(key)`: the mapped value, or `none` for `end()`. -/
def map_find {β : Type} : StdMap β → Nat → Option β
  | [], _ => none
  | (k, v) :: rest, key => if k = key then some v else map_find rest key

/-- Place a fresh key at its position in the ascending key order. -/
def ordered_insert {β : Type} (k : Nat) (v : β) : StdMap β → StdMap β
  | [] => [(k, v)]
  | (k1, v1) :: rest =>
    if k < k1 then (k, v) :: (k1, v1) :: rest else (k1, v1) :: ordered_insert k v rest

/-- Member `m.insert({k, v})`: does nothing when the key is already present. -/
def map_insert {β : Type} (m : StdMap β) (k : Nat) (v : β) : StdMap β :=
  match map_find m k with
  | some _ => m
  | none => ordered_insert k v m

/-- Statement `m[k] = v`: overwrites the mapped value when the key is present. -/
def map_assign {β : Type} (m : StdMap β) (k : Nat) (v : β) : StdMap β :=
  match map_find m k with
  | some _ => m.map (fun p => if p.1 = k then (p.1, v) else p)
  | none => ordered_insert k v m

/-! ## `DexStrings` -/

/-- Modelled from the spec: `KUNAI::read_dex_string(input_file, offset)` is the
external string codec (`StringCodec.decode(source, offset) -> text`), not among
the sources. It is a parameter of the development: a function of the file bytes
and the offset that leaves the cursor where it found it. -/
abbrev StringCodec := List Nat → Nat → String

/-- The fields of class `DexStrings`. An element of `ordered_strings` is a
pointer to a value stored in `strings`; it is represented by the key of that
value, and dereferenced by looking the key up. -/
structure DexStrings where
  number_of_strings : Nat
  offset : Nat
  strings : StdMap String
  ordered_strings : List Nat
  deriving DecidableEq, Repr

/-- The `for` loop of `DexStrings::parse_strings`, with `n` iterations left.
`.ok true` means the loop ran to its end, `.ok false` is the `return false`
inside the loop and `.error` is the `throw`. -/
def DexStrings.parse_strings_loop (codec : StringCodec) (file_size : Nat) :
    Nat → DexStrings → IFStream → Except DexError Bool × DexStrings × IFStream
  | 0, self, f => (.ok true, self, f)
  | n + 1, self, f =>
    match read_data_file 4 f with
    | (none, f1) => (.ok false, self, f1)
    | (some str_offset, f1) =>
      if str_offset > file_size then
        (.error (.OutOfBoundException "Error offset from string out of file bound"), self, f1)
      else
        let str := codec f1.bytes str_offset
        let self1 := { self with strings := map_insert self.strings str_offset str }
        let self2 := { self1 with ordered_strings := self1.ordered_strings ++ [str_offset] }
        DexStrings.parse_strings_loop codec file_size n self2 f1

/-- Method `DexStrings::parse_strings`. -/
def DexStrings.parse_strings (codec : StringCodec) (self : DexStrings) (f : IFStream)
    (file_size : Nat) : Except DexError Bool × DexStrings × IFStream :=
  let current_offset := f.tellg
  let f0 := f.seekg self.offset
  match DexStrings.parse_strings_loop codec file_size self.number_of_strings self f0 with
  | (.ok true, self1, f1) => (.ok true, self1, f1.seekg current_offset)
  | r => r

/-- Constructor `DexStrings::DexStrings`. The result is the built pool or the
exception that left the constructor, together with the stream as it was left. -/
def DexStrings.new (codec : StringCodec) (f : IFStream) (file_size number_of_strings
    strings_offsets : Nat) : Except DexError DexStrings × IFStream :=
  let self : DexStrings :=
    { number_of_strings := number_of_strings, offset := strings_offsets,
      strings := [], ordered_strings := [] }
  match DexStrings.parse_strings codec self f file_size with
  | (.ok true, self1, f1) => (.ok self1, f1)
  | (.ok false, _, f1) => (.error (.ParserReadingException "Error reading DEX strings"), f1)
  | (.error e, _, f1) => (.error e, f1)

/-- Method `DexStrings::get_string_from_offset`. -/
def DexStrings.get_string_from_offset (self : DexStrings) (offset : Nat) : Option String :=
  map_find self.strings offset

/-- Method `DexStrings::get_string_from_order`: the bound is the size of the
map, the element comes from the order vector. -/
def DexStrings.get_string_from_order (self : DexStrings) (pos : Nat) : Option String :=
  if pos ≥ self.strings.length then none
  else
    match self.ordered_strings[pos]? with
    | some key => map_find self.strings key
    | none => none

/-- Method `DexStrings::get_string_from_order` once more, with the access to the
order vector made observable. `std::vector::operator[]` has no bounds check, so
`ordered_strings[pos]` for a position outside the vector is undefined behaviour:
that outcome is `none` here. `some r` means the method returned the pointer `r`
without leaving the vector. -/
def DexStrings.get_string_from_order_checked (self : DexStrings) (pos : Nat) :
    Option (Option String) :=
  if pos ≥ self.strings.length then some none
  else
    match self.ordered_strings[pos]? with
    | some key => some (map_find self.strings key)
    | none => none

/-- Method `DexStrings::get_all_strings`: the mapped values in map iteration order. -/
def DexStrings.get_all_strings (self : DexStrings) : List String :=
  self.strings.map Prod.snd

/-- Method `DexStrings::get_number_of_strings`. -/
def DexStrings.get_number_of_strings (self : DexStrings) : Nat :=
  self.number_of_strings

/-- An unsigned integer as the stream prints it after `std::dec`. -/
def dec_digits (n : Nat) : String := String.mk (Nat.toDigits 10 n)

/-- An unsigned integer as the stream prints it after `std::hex`: lower-case
digits, no base marker. -/
def hex_digits (n : Nat) : String := String.mk (Nat.toDigits 16 n)

/-- The line that one iteration of the loop of the pretty printer writes:
counter `i` in decimal, then the map key in hexadecimal and the mapped text. -/
def DexStrings.human_record (i off : Nat) (text : String) : String :=
  "String (" ++ dec_digits i ++ "): " ++ hex_digits off ++ "->\"" ++ text ++ "\""

/-- The loop of `operator<<(std::ostream&, const DexStrings&)` over the map
entries, with the counter at `i`. -/
def DexStrings.human_records : StdMap String → Nat → List String
  | [], _ => []
  | (off, text) :: rest, i =>
    DexStrings.human_record i off text :: DexStrings.human_records rest (i + 1)

/-- Function `operator<<(std::ostream&, const DexStrings&)`: the lines written,
each one ended by `std::endl`. The title is longer than the field width 30, so
it is written without padding. -/
def DexStrings.ostream_insert (entry : DexStrings) : List String :=
  "=========== DEX Strings ===========" :: DexStrings.human_records entry.strings 0

/-- The four lines that one iteration of the loop of the XML dump writes. -/
def DexStrings.xml_record (off : Nat) (text : String) : List String :=
  ["\t<string>", "\t\t<offset>" ++ hex_digits off ++ "</offset>",
   "\t\t<value>" ++ text ++ "</value>", "\t</string>"]

/-- The loop of `operator<<(std::fstream&, const DexStrings&)` over the map
entries. -/
def DexStrings.xml_records : StdMap String → List String
  | [] => []
  | (off, text) :: rest => DexStrings.xml_record off text ++ DexStrings.xml_records rest

/-- Function `operator<<(std::fstream&, const DexStrings&)`: the lines written to
the file, each one ended by `std::endl`. -/
def DexStrings.fstream_insert (entry : DexStrings) : List String :=
  ["<strings>"] ++ DexStrings.xml_records entry.strings ++ ["</strings>"]

/-! ## `ProtoID` and `DexProtos` -/

/-- Modelled from the spec: class `DexTypes` (the type pool) is an external
collaborator whose source is not present; only its two queries are used,
`TypePool.count()` and `TypePool.by_order(idx)`. A `Type*` is an `Option τ`. -/
structure DexTypes (τ : Type) where
  get_number_of_types : Nat
  get_type_from_order : Nat → Option τ

/-- The fields of class `ProtoID`. -/
structure ProtoID (τ : Type) where
  shorty_idx : StdMap (Option String)
  return_type_idx : StdMap (Option τ)
  parameters_off : Nat
  parameters : StdMap (Option τ)
  deriving DecidableEq, Repr

/-- The `for` loop of `ProtoID::parse_parameters`, with `n` iterations left.
`true` means the loop ran to its end, `false` is the `return false` inside it.
The `IncorrectTypeId` object of the bounds check is built and dropped: there is
no `throw` in front of it. -/
def ProtoID.parse_parameters_loop {τ : Type} (dex_types : DexTypes τ) :
    Nat → ProtoID τ → IFStream → Bool × ProtoID τ × IFStream
  | 0, self, f => (true, self, f)
  | n + 1, self, f =>
    match read_data_file 2 f with
    | (none, f1) => (false, self, f1)
    | (some type_id, f1) =>
      let _dropped : Option DexError :=
        if type_id > dex_types.get_number_of_types then
          some (.IncorrectTypeId "Error reading ProtoID parameters type_id out of type bound")
        else none
      let ty := dex_types.get_type_from_order type_id
      ProtoID.parse_parameters_loop dex_types n
        { self with parameters := map_assign self.parameters type_id ty } f1

/-- Method `ProtoID::parse_parameters`. -/
def ProtoID.parse_parameters {τ : Type} (self : ProtoID τ) (f : IFStream)
    (dex_types : DexTypes τ) : Bool × ProtoID τ × IFStream :=
  let current_offset := f.tellg
  if self.parameters_off = 0 then (true, self, f)
  else
    let f0 := f.seekg self.parameters_off
    match read_data_file 4 f0 with
    | (none, f1) => (false, self, f1)
    | (some size, f1) =>
      match ProtoID.parse_parameters_loop dex_types size self f1 with
      | (true, self1, f2) => (true, self1, f2.seekg current_offset)
      | r => r

/-- The field assignments at the start of constructor `ProtoID::ProtoID`. -/
def ProtoID.init {τ : Type} (shorty_idx return_type_idx parameters_off : Nat)
    (dex_strings : DexStrings) (dex_types : DexTypes τ) : ProtoID τ :=
  { shorty_idx := map_assign [] shorty_idx (dex_strings.get_string_from_order shorty_idx),
    return_type_idx := map_assign [] return_type_idx (dex_types.get_type_from_order return_type_idx),
    parameters_off := parameters_off,
    parameters := [] }

/-- Constructor `ProtoID::ProtoID`. -/
def ProtoID.new {τ : Type} (shorty_idx return_type_idx parameters_off : Nat) (f : IFStream)
    (dex_strings : DexStrings) (dex_types : DexTypes τ) : Except DexError (ProtoID τ) × IFStream :=
  match (ProtoID.init shorty_idx return_type_idx parameters_off dex_strings dex_types).parse_parameters
      f dex_types with
  | (true, self1, f1) => (.ok self1, f1)
  | (false, _, f1) => (.error (.ParserReadingException "Error reading ProtoID"), f1)

/-- Method `ProtoID::get_number_of_parameters`. -/
def ProtoID.get_number_of_parameters {τ : Type} (self : ProtoID τ) : Nat :=
  self.parameters.length

/-- The iteration of `ProtoID::get_parameter_type_by_order` over the map entries
from counter value `i` on. -/
def ProtoID.nth_from {τ : Type} : StdMap (Option τ) → Nat → Nat → Option τ
  | [], _, _ => none
  | (_, v) :: rest, i, pos => if i = pos then v else ProtoID.nth_from rest (i + 1) pos

/-- Method `ProtoID::get_parameter_type_by_order`. -/
def ProtoID.get_parameter_type_by_order {τ : Type} (self : ProtoID τ) (pos : Nat) : Option τ :=
  ProtoID.nth_from self.parameters 0 pos

/-- Method `ProtoID::get_return_idx`. -/
def ProtoID.get_return_idx {τ : Type} (self : ProtoID τ) : Option τ :=
  match self.return_type_idx with
  | [] => none
  | (_, v) :: _ => v

/-- Method `ProtoID::get_shorty_idx`. -/
def ProtoID.get_shorty_idx {τ : Type} (self : ProtoID τ) : Option String :=
  match self.shorty_idx with
  | [] => none
  | (_, v) :: _ => v

/-- The fields of class `DexProtos`. -/
structure DexProtos (τ : Type) where
  number_of_protos : Nat
  offset : Nat
  dex_strings : DexStrings
  dex_types : DexTypes τ
  proto_ids : List (ProtoID τ)

/-- The `for` loop of `DexProtos::parse_protos`, with `n` iterations left.
`.ok true` means the loop ran to its end, `.ok false` is a `return false`
inside the loop and `.error` is an exception leaving it. -/
def DexProtos.parse_protos_loop {τ : Type} :
    Nat → DexProtos τ → IFStream → Except DexError Bool × DexProtos τ × IFStream
  | 0, self, f => (.ok true, self, f)
  | n + 1, self, f =>
    match read_data_file 4 f with
    | (none, f1) => (.ok false, self, f1)
    | (some shorty_idx, f1) =>
      if shorty_idx ≥ self.dex_strings.get_number_of_strings then
        (.error (.IncorrectStringId "Error reading protos short_idx out of string bound"), self, f1)
      else
        match read_data_file 4 f1 with
        | (none, f2) => (.ok false, self, f2)
        | (some return_type_idx, f2) =>
          if return_type_idx ≥ self.dex_types.get_number_of_types then
            (.error (.IncorrectTypeId "Error reading protos return_type_idx out of type bound"),
              self, f2)
          else
            match read_data_file 4 f2 with
            | (none, f3) => (.ok false, self, f3)
            | (some parameters_off, f3) =>
              match ProtoID.new shorty_idx return_type_idx parameters_off f3 self.dex_strings
                  self.dex_types with
              | (.error e, f4) => (.error e, self, f4)
              | (.ok proto_id, f4) =>
                DexProtos.parse_protos_loop n
                  { self with proto_ids := self.proto_ids ++ [proto_id] } f4

/-- Method `DexProtos::parse_protos` (`file_size` is not used by it). -/
def DexProtos.parse_protos {τ : Type} (self : DexProtos τ) (f : IFStream) (_file_size : Nat) :
    Except DexError Bool × DexProtos τ × IFStream :=
  let current_offset := f.tellg
  let f0 := f.seekg self.offset
  match DexProtos.parse_protos_loop self.number_of_protos self f0 with
  | (.ok true, self1, f1) => (.ok true, self1, f1.seekg current_offset)
  | r => r

/-- Constructor `DexProtos::DexProtos`. -/
def DexProtos.new {τ : Type} (f : IFStream) (file_size number_of_protos offset : Nat)
    (dex_strings : DexStrings) (dex_types : DexTypes τ) :
    Except DexError (DexProtos τ) × IFStream :=
  let self : DexProtos τ :=
    { number_of_protos := number_of_protos, offset := offset, dex_strings := dex_strings,
      dex_types := dex_types, proto_ids := [] }
  match self.parse_protos f file_size with
  | (.ok true, self1, f1) => (.ok self1, f1)
  | (.ok false, _, f1) => (.error (.ParserReadingException "Error reading DEX protos"), f1)
  | (.error e, _, f1) => (.error e, f1)

/-- Method `DexProtos::get_number_of_protos`. -/
def DexProtos.get_number_of_protos {τ : Type} (self : DexProtos τ) : Nat :=
  self.number_of_protos

/-- Method `DexProtos::get_proto_by_order`. -/
def DexProtos.get_proto_by_order {τ : Type} (self : DexProtos τ) (pos : Nat) :
    Option (ProtoID τ) :=
  if pos ≥ self.proto_ids.length then none else self.proto_ids[pos]?

/-! ## `DVMTypes` -/

/-- Constant `DVMTypes::ENDIAN_CONSTANT`. -/
def DVMTypes.ENDIAN_CONSTANT : Nat := 0x12345678

/-- Constant `DVMTypes::REVERSE_ENDIAN_CONSTANT`. -/
def DVMTypes.REVERSE_ENDIAN_CONSTANT : Nat := 0x78563412

/-- Constant `DVMTypes::NO_INDEX`. -/
def DVMTypes.NO_INDEX : Nat := 0xFFFFFFFF

/-! ## Auxiliary definitions for the statements -/

/-- The map after inserting the decoded text of each offset of `offs` in turn. -/
def insert_all (g : Nat → String) (m : StdMap String) (offs : List Nat) : StdMap String :=
  offs.foldl (fun acc o => map_insert acc o (g o)) m

/-- The map after assigning the type of each index of `idx` in turn, as the loop
of `ProtoID::parse_parameters` does. -/
def assign_all {τ : Type} (g : Nat → Option τ) (m : StdMap (Option τ)) (idx : List Nat) :
    StdMap (Option τ) :=
  idx.foldl (fun acc t => map_assign acc t (g t)) m

/-- The offsets held by those of the first `n` entries of the string table at
`table` that lie inside the file, in file order. -/
def table_offsets (bytes : List Nat) (table n : Nat) : List Nat :=
  (List.range n).filterMap (fun j => read_at bytes (table + 4 * j) 4)

/-- The type indices held by those of the first `n` entries of the parameter
region at `region` (behind its `u32` size field) that lie inside the file, in
file order. -/
def region_indices (bytes : List Nat) (region n : Nat) : List Nat :=
  (List.range n).filterMap (fun j => read_at bytes (region + 4 + 2 * j) 2)

/-- The 32-bit value with the four bytes of `x` in reverse order. -/
def byte_swap32 (x : Nat) : Nat :=
  (x % 256) * 16777216 + (x / 256 % 256) * 65536 + (x / 65536 % 256) * 256 +
    (x / 16777216 % 256)

/-! ## Fixtures for the concrete scenarios -/

namespace Fixture

/-- A string codec in the shape of the DEX string-data layout: one length byte,
then the characters up to the terminating zero byte. -/
def codec : StringCodec := fun bytes off =>
  String.mk (((bytes.drop (off + 1)).takeWhile (fun b => b != 0)).map Char.ofNat)

/-- A type pool of two types, `I` and `V`. -/
def types : DexTypes String :=
  { get_number_of_types := 2,
    get_type_from_order := fun i => if i = 0 then some "I" else if i = 1 then some "V" else none }

/-- A stream over `bytes` with the cursor at `pos` and nothing done yet. -/
def stream (bytes : List Nat) (pos : Nat) : IFStream :=
  { bytes := bytes, pos := pos, trace := [] }

/-- A 27-byte file: a string table of three entries at offset 0 pointing at the
string data "foo" (offset 12), "bar" (offset 17) and "baz" (offset 22). -/
def three_strings : List Nat :=
  [12, 0, 0, 0, 17, 0, 0, 0, 22, 0, 0, 0,
   3, 102, 111, 111, 0, 3, 98, 97, 114, 0, 3, 98, 97, 122, 0]

/-- A 12-byte file: a string table of two entries at offset 0, both pointing at
the string data "hi" at offset 8. -/
def repeated_offset : List Nat :=
  [8, 0, 0, 0, 8, 0, 0, 0, 2, 104, 105, 0]

/-- A 14-byte file: a string table of two entries at offset 0 whose offsets
descend: entry 0 points at "b" (offset 11), entry 1 at "a" (offset 8). -/
def descending_offsets : List Nat :=
  [11, 0, 0, 0, 8, 0, 0, 0, 1, 97, 0, 1, 98, 0]

/-- The pool built from `three_strings` (declared count 3, table at offset 0). -/
def three_strings_pool : DexStrings :=
  { number_of_strings := 3, offset := 0,
    strings := [(12, "foo"), (17, "bar"), (22, "baz")], ordered_strings := [12, 17, 22] }

/-- The pool built from `repeated_offset` (declared count 2, table at offset 0). -/
def repeated_offset_pool : DexStrings :=
  { number_of_strings := 2, offset := 0, strings := [(8, "hi")], ordered_strings := [8, 8] }

/-- The pool built from `descending_offsets` (declared count 2, table at offset 0). -/
def descending_offsets_pool : DexStrings :=
  { number_of_strings := 2, offset := 0,
    strings := [(8, "a"), (11, "b")], ordered_strings := [11, 8] }

/-- A 12-byte file with a parameter region at offset 4: `size = 2`, then the
type indices 1 and 0, in that order. -/
def params_swapped : List Nat :=
  [0, 0, 0, 0, 2, 0, 0, 0, 1, 0, 0, 0]

/-- A 12-byte file with a parameter region at offset 4: `size = 2`, then the
type index 0 twice. -/
def params_repeated : List Nat :=
  [0, 0, 0, 0, 2, 0, 0, 0, 0, 0, 0, 0]

/-- An 18-byte file: a prototype table of one entry at offset 0
(`shorty_idx = 0`, `return_type_idx = 0`, `parameters_off = 12`) and its
parameter region at offset 12: `size = 1`, then the type index 5. -/
def params_out_of_range : List Nat :=
  [0, 0, 0, 0, 0, 0, 0, 0, 12, 0, 0, 0, 1, 0, 0, 0, 5, 0]

/-- A 24-byte file: the string table and data of `repeated_offset`, followed at
offset 12 by a prototype table of one entry (`shorty_idx = 1`,
`return_type_idx = 0`, `parameters_off = 0`). -/
def shorty_unresolved : List Nat :=
  [8, 0, 0, 0, 8, 0, 0, 0, 2, 104, 105, 0, 1, 0, 0, 0, 0, 0, 0, 0, 0, 0, 0, 0]

/-- A 24-byte file: a prototype table of two entries at offset 0, the first
(`0, 1, 0`) valid, the second (`1, 7, 0`) with a return type index past the two
types of `types`. -/
def return_type_out_of_range : List Nat :=
  [0, 0, 0, 0, 1, 0, 0, 0, 0, 0, 0, 0, 1, 0, 0, 0, 7, 0, 0, 0, 0, 0, 0, 0]

/-- A 32-byte file: a prototype table of two entries at offset 0, the first
(`0, 1, 24`) with a parameter region at offset 24 (`size = 2`, type indices 0
and 1), the second (`1, 0, 0`) without parameters. -/
def two_protos : List Nat :=
  [0, 0, 0, 0, 1, 0, 0, 0, 24, 0, 0, 0, 1, 0, 0, 0, 0, 0, 0, 0, 0, 0, 0, 0,
   2, 0, 0, 0, 0, 0, 1, 0]

/-- The first prototype of `two_protos`. -/
def two_protos_first : ProtoID String :=
  { shorty_idx := [(0, some "foo")], return_type_idx := [(1, some "V")], parameters_off := 24,
    parameters := [(0, some "I"), (1, some "V")] }

/-- The second prototype of `two_protos`. -/
def two_protos_second : ProtoID String :=
  { shorty_idx := [(1, some "bar")], return_type_idx := [(0, some "I")], parameters_off := 0,
    parameters := [] }

/-- The prototype built from the parameter region of `params_swapped`. -/
def params_swapped_proto : ProtoID String :=
  { shorty_idx := [(0, some "foo")], return_type_idx := [(1, some "V")], parameters_off := 4,
    parameters := [(0, some "I"), (1, some "V")] }

/-- The prototype built from the parameter region of `params_repeated`. -/
def params_repeated_proto : ProtoID String :=
  { shorty_idx := [(0, some "foo")], return_type_idx := [(1, some "V")], parameters_off := 4,
    parameters := [(0, some "I")] }

/-- The prototype built from the single entry of `params_out_of_range`. -/
def params_out_of_range_proto : ProtoID String :=
  { shorty_idx := [(0, some "foo")], return_type_idx := [(0, some "I")], parameters_off := 12,
    parameters := [(5, none)] }

/-- The prototype built from the single entry of `shorty_unresolved`. -/
def shorty_unresolved_proto : ProtoID String :=
  { shorty_idx := [(1, none)], return_type_idx := [(0, some "I")], parameters_off := 0,
    parameters := [] }

/-- The prototype built from the first entry of `return_type_out_of_range`. -/
def return_type_first_proto : ProtoID String :=
  { shorty_idx := [(0, some "foo")], return_type_idx := [(1, some "V")], parameters_off := 0,
    parameters := [] }

/-- A 12-byte file: a string table of two entries at offset 0, the second one
holding the offset 200, past the file size 12. -/
def offset_out_of_bounds : List Nat :=
  [8, 0, 0, 0, 200, 0, 0, 0, 2, 104, 105, 0]

/-- A 12-byte file: a prototype table of one entry at offset 0 with
`shorty_idx = 9`, past the three strings of `three_strings_pool`. -/
def shorty_out_of_range : List Nat :=
  [9, 0, 0, 0, 0, 0, 0, 0, 0, 0, 0, 0]

/-- An 18-byte file: a prototype table of one entry at offset 0
(`shorty_idx = 0`, `return_type_idx = 0`, `parameters_off = 12`) and a parameter
region at offset 12 that declares `size = 2` but holds one type index only. -/
def params_truncated : List Nat :=
  [0, 0, 0, 0, 0, 0, 0, 0, 12, 0, 0, 0, 2, 0, 0, 0, 0, 0]

/-- A 12-byte file: the string data "hi" at offset 0, then a string table at
offset 4 whose two entries (both offset 0) run up to the end of the file. -/
def table_at_end : List Nat :=
  [2, 104, 105, 0, 0, 0, 0, 0, 0, 0, 0, 0]

end Fixture

/-! ## The byte source: basic facts -/

theorem read_data_file_some {size : Nat} {f : IFStream} {v : Nat}
    (h : read_at f.bytes f.pos size = some v) :
    read_data_file size f =
      (some v, { f with pos := f.pos + size,
                        trace := f.trace ++ [StreamEvent.read f.pos size] }) := by
  simp [read_data_file, h]

theorem read_data_file_none {size : Nat} {f : IFStream}
    (h : read_at f.bytes f.pos size = none) :
    read_data_file size f =
      (none, { f with trace := f.trace ++ [StreamEvent.read f.pos size] }) := by
  simp [read_data_file, h]

/-! ## `DexStrings`: what a completed table loop leaves behind -/

theorem parse_strings_loop_ok (codec : StringCodec) (file_size : Nat) :
    ∀ (n : Nat) (self : DexStrings) (f : IFStream) (self1 : DexStrings) (f1 : IFStream),
      DexStrings.parse_strings_loop codec file_size n self f = (.ok true, self1, f1) →
      ∃ offs : List Nat, offs.length = n ∧
        (∀ j, j < n → read_at f.bytes (f.pos + 4 * j) 4 = offs[j]?) ∧
        (∀ o ∈ offs, o ≤ file_size) ∧
        self1 = { self with strings := insert_all (codec f.bytes) self.strings offs,
                            ordered_strings := self.ordered_strings ++ offs } ∧
        f1.bytes = f.bytes ∧ f1.pos = f.pos + 4 * n := by
  intro n
  induction n with
  | zero =>
    intro self f self1 f1 h
    simp only [DexStrings.parse_strings_loop, Prod.mk.injEq] at h
    obtain ⟨-, rfl, rfl⟩ := h
    exact ⟨[], rfl, by intro j hj; omega, by simp, by simp [insert_all], rfl, rfl⟩
  | succ n ih =>
    intro self f self1 f1 h
    unfold DexStrings.parse_strings_loop at h
    cases hr : read_at f.bytes f.pos 4 with
    | none =>
      rw [read_data_file_none hr] at h
      simp at h
    | some o =>
      rw [read_data_file_some hr] at h
      by_cases hgt : o > file_size
      · simp [hgt] at h
      · simp only [hgt, if_false] at h
        obtain ⟨offs, hlen, hread, hle, hself, hb, hp⟩ := ih _ _ _ _ h
        refine ⟨o :: offs, by simp [hlen], ?_, ?_, ?_, hb, ?_⟩
        · intro j hj
          cases j with
          | zero => simpa using hr
          | succ j =>
            have := hread j (by omega)
            simp only at this
            rw [List.getElem?_cons_succ, ← this]
            congr 1
            omega
        · intro x hx
          rcases List.mem_cons.1 hx with rfl | hx
          · omega
          · exact hle x hx
        · rw [hself]
          simp [insert_all]
        · simp only at hp
          omega

theorem DexStrings_new_ok (codec : StringCodec) (f : IFStream) (file_size N T : Nat)
    (pool : DexStrings) (f1 : IFStream)
    (h : DexStrings.new codec f file_size N T = (.ok pool, f1)) :
    ∃ offs : List Nat, offs.length = N ∧
      (∀ j, j < N → read_at f.bytes (T + 4 * j) 4 = offs[j]?) ∧
      (∀ o ∈ offs, o ≤ file_size) ∧
      pool = { number_of_strings := N, offset := T,
               strings := insert_all (codec f.bytes) [] offs, ordered_strings := offs } ∧
      f1.bytes = f.bytes ∧ f1.pos = f.pos := by
  unfold DexStrings.new DexStrings.parse_strings at h
  simp only at h
  split at h
  · rename_i self1 f2 heq
    split at heq
    · rename_i self2 f3 hloop
      obtain ⟨offs, hlen, hread, hle, hself, hb, -⟩ := parse_strings_loop_ok _ _ _ _ _ _ _ hloop
      simp only [Prod.mk.injEq, Except.ok.injEq] at heq h
      obtain ⟨-, rfl, rfl⟩ := heq
      obtain ⟨rfl, rfl⟩ := h
      refine ⟨offs, hlen, ?_, hle, ?_, ?_, ?_⟩
      · simpa [IFStream.seekg] using hread
      · simpa using hself
      · simpa [IFStream.seekg] using hb
      · simp [IFStream.seekg, IFStream.tellg]
    · rename_i hne
      exact absurd heq (hne _ _)
  · simp at h
  · simp at h

/-! ## `std::map`: lookup, key order and contents -/

theorem map_find_eq_none_iff {β : Type} (m : StdMap β) (k : Nat) :
    map_find m k = none ↔ k ∉ m.map Prod.fst := by
  induction m with
  | nil => simp [map_find]
  | cons p rest ih =>
    obtain ⟨k1, v1⟩ := p
    by_cases h : k1 = k
    · simp [map_find, h]
    · have h2 : ¬ k = k1 := fun e => h e.symm
      simp [map_find, h, h2, ih]

theorem mem_keys_ordered_insert {β : Type} (k : Nat) (v : β) (m : StdMap β) (x : Nat) :
    x ∈ (ordered_insert k v m).map Prod.fst ↔ x = k ∨ x ∈ m.map Prod.fst := by
  induction m with
  | nil => simp [ordered_insert]
  | cons p rest ih =>
    obtain ⟨k1, v1⟩ := p
    by_cases h : k < k1
    · simp [ordered_insert, h]
    · simp only [ordered_insert, h, if_false, List.map_cons, List.mem_cons, ih]
      tauto

theorem keys_sorted_ordered_insert {β : Type} (k : Nat) (v : β) (m : StdMap β)
    (hs : (m.map Prod.fst).Pairwise (· < ·)) (hk : k ∉ m.map Prod.fst) :
    ((ordered_insert k v m).map Prod.fst).Pairwise (· < ·) := by
  induction m with
  | nil => simp [ordered_insert]
  | cons p rest ih =>
    obtain ⟨k1, v1⟩ := p
    simp only [List.map_cons, List.pairwise_cons, List.mem_cons, not_or] at hs hk
    by_cases h : k < k1
    · simp only [ordered_insert, h, if_true, List.map_cons, List.pairwise_cons, List.mem_cons]
      refine ⟨?_, hs.1, hs.2⟩
      rintro a (rfl | ha)
      · exact h
      · exact lt_trans h (hs.1 a ha)
    · simp only [ordered_insert, h, if_false, List.map_cons, List.pairwise_cons]
      refine ⟨?_, ih hs.2 hk.2⟩
      intro a ha
      rcases (mem_keys_ordered_insert k v rest a).1 ha with rfl | ha
      · have := hk.1
        omega
      · exact hs.1 a ha

theorem ordered_insert_of_all_lt {β : Type} (k : Nat) (v : β) (m : StdMap β)
    (h : ∀ x ∈ m.map Prod.fst, x < k) : ordered_insert k v m = m ++ [(k, v)] := by
  induction m with
  | nil => rfl
  | cons p rest ih =>
    obtain ⟨k1, v1⟩ := p
    simp only [List.map_cons, List.mem_cons, forall_eq_or_imp] at h
    have : ¬ k < k1 := by omega
    simp [ordered_insert, this, ih h.2]

theorem mem_keys_map_insert {β : Type} (m : StdMap β) (k : Nat) (v : β) (x : Nat) :
    x ∈ (map_insert m k v).map Prod.fst ↔ x = k ∨ x ∈ m.map Prod.fst := by
  unfold map_insert
  cases h : map_find m k with
  | none => simpa using mem_keys_ordered_insert k v m x
  | some w =>
    have hk : k ∈ m.map Prod.fst := by
      by_contra hc
      rw [(map_find_eq_none_iff m k).2 hc] at h
      cases h
    simp only
    constructor
    · exact fun hx => Or.inr hx
    · rintro (rfl | hx)
      · exact hk
      · exact hx

theorem keys_sorted_map_insert {β : Type} (m : StdMap β) (k : Nat) (v : β)
    (hs : (m.map Prod.fst).Pairwise (· < ·)) :
    ((map_insert m k v).map Prod.fst).Pairwise (· < ·) := by
  unfold map_insert
  cases h : map_find m k with
  | none => exact keys_sorted_ordered_insert k v m hs ((map_find_eq_none_iff m k).1 h)
  | some w => exact hs

theorem mem_ordered_insert {β : Type} (k : Nat) (v : β) (m : StdMap β) (p : Nat × β) :
    p ∈ ordered_insert k v m ↔ p = (k, v) ∨ p ∈ m := by
  induction m with
  | nil => simp [ordered_insert]
  | cons q rest ih =>
    obtain ⟨k1, v1⟩ := q
    by_cases h : k < k1
    · simp [ordered_insert, h]
    · simp only [ordered_insert, h, if_false, List.mem_cons, ih]
      tauto

theorem values_map_insert (g : Nat → String) (m : StdMap String) (k : Nat)
    (hv : ∀ p ∈ m, p.2 = g p.1) : ∀ p ∈ map_insert m k (g k), p.2 = g p.1 := by
  unfold map_insert
  cases h : map_find m k with
  | none =>
    intro p hp
    rcases (mem_ordered_insert k (g k) m p).1 hp with rfl | hp
    · rfl
    · exact hv p hp
  | some w => exact hv

/-! ## `DexStrings`: the map built by the table loop -/

theorem insert_all_spec (g : Nat → String) :
    ∀ (offs : List Nat) (m : StdMap String),
      (m.map Prod.fst).Pairwise (· < ·) → (∀ p ∈ m, p.2 = g p.1) →
      ((insert_all g m offs).map Prod.fst).Pairwise (· < ·) ∧
      (∀ p ∈ insert_all g m offs, p.2 = g p.1) ∧
      (∀ x, x ∈ (insert_all g m offs).map Prod.fst ↔ x ∈ m.map Prod.fst ∨ x ∈ offs) := by
  intro offs
  induction offs with
  | nil => intro m hs hv; exact ⟨hs, hv, by simp [insert_all]⟩
  | cons o rest ih =>
    intro m hs hv
    have h := ih (map_insert m o (g o)) (keys_sorted_map_insert m o (g o) hs)
      (values_map_insert g m o hv)
    refine ⟨h.1, h.2.1, ?_⟩
    intro x
    have hx := h.2.2 x
    simp only [insert_all, List.foldl_cons] at hx ⊢
    rw [hx, mem_keys_map_insert, List.mem_cons]
    tauto

theorem insert_all_of_increasing (g : Nat → String) :
    ∀ (offs : List Nat) (m : StdMap String),
      offs.Pairwise (· < ·) → (∀ x ∈ m.map Prod.fst, ∀ o ∈ offs, x < o) →
      insert_all g m offs = m ++ offs.map (fun o => (o, g o)) := by
  intro offs
  induction offs with
  | nil => intro m _ _; simp [insert_all]
  | cons o rest ih =>
    intro m hs hlt
    rw [List.pairwise_cons] at hs
    have hall : ∀ x ∈ m.map Prod.fst, x < o := fun x hx => hlt x hx o (List.mem_cons_self _ _)
    have hnone : map_find m o = none := by
      rw [map_find_eq_none_iff]
      intro hmem
      exact lt_irrefl _ (hall o hmem)
    have hins : map_insert m o (g o) = m ++ [(o, g o)] := by
      simp only [map_insert, hnone]
      exact ordered_insert_of_all_lt o (g o) m hall
    have := ih (m ++ [(o, g o)]) hs.2 (by
      intro x hx y hy
      simp only [List.map_append, List.map_cons, List.map_nil, List.mem_append,
        List.mem_singleton] at hx
      rcases hx with hx | rfl
      · exact hlt x hx y (List.mem_cons_of_mem _ hy)
      · exact hs.1 y hy)
    simp only [insert_all, List.foldl_cons] at this ⊢
    rw [hins, this]
    simp

theorem map_find_graph (g : Nat → String) (l : List Nat) (x : Nat) (hx : x ∈ l) :
    map_find (l.map (fun o => (o, g o))) x = some (g x) := by
  induction l with
  | nil => cases hx
  | cons o rest ih =>
    by_cases h : o = x
    · simp [map_find, h]
    · rcases List.mem_cons.1 hx with rfl | hx
      · exact absurd rfl h
      · simp [map_find, h, ih hx]

/-! ## `ProtoID`: what the parameter parse leaves behind -/

theorem parse_parameters_loop_frame {τ : Type} (dex_types : DexTypes τ) :
    ∀ (n : Nat) (self : ProtoID τ) (f : IFStream),
      (ProtoID.parse_parameters_loop dex_types n self f).2.2.bytes = f.bytes ∧
      (ProtoID.parse_parameters_loop dex_types n self f).2.1.shorty_idx = self.shorty_idx ∧
      (ProtoID.parse_parameters_loop dex_types n self f).2.1.return_type_idx =
        self.return_type_idx ∧
      (ProtoID.parse_parameters_loop dex_types n self f).2.1.parameters_off =
        self.parameters_off ∧
      ((ProtoID.parse_parameters_loop dex_types n self f).1 = true →
        (ProtoID.parse_parameters_loop dex_types n self f).2.2.pos = f.pos + 2 * n) := by
  intro n
  induction n with
  | zero => intro self f; simp [ProtoID.parse_parameters_loop]
  | succ n ih =>
    intro self f
    unfold ProtoID.parse_parameters_loop
    cases hr : read_at f.bytes f.pos 2 with
    | none =>
      rw [read_data_file_none hr]
      simp
    | some type_id =>
      rw [read_data_file_some hr]
      simp only
      obtain ⟨h1, h2, h3, h4, h5⟩ := ih
        { self with parameters :=
            map_assign self.parameters type_id (dex_types.get_type_from_order type_id) }
        { f with pos := f.pos + 2, trace := f.trace ++ [StreamEvent.read f.pos 2] }
      refine ⟨h1, h2, h3, h4, ?_⟩
      intro ht
      rw [h5 ht]
      simp only
      omega

theorem parse_parameters_frame {τ : Type} (self : ProtoID τ) (f : IFStream)
    (dex_types : DexTypes τ) :
    (self.parse_parameters f dex_types).2.2.bytes = f.bytes ∧
    (self.parse_parameters f dex_types).2.1.shorty_idx = self.shorty_idx ∧
    (self.parse_parameters f dex_types).2.1.return_type_idx = self.return_type_idx ∧
    (self.parse_parameters f dex_types).2.1.parameters_off = self.parameters_off ∧
    ((self.parse_parameters f dex_types).1 = true →
      (self.parse_parameters f dex_types).2.2.pos = f.pos) := by
  unfold ProtoID.parse_parameters
  by_cases h0 : self.parameters_off = 0
  · simp [h0]
  · simp only [h0, if_false]
    cases hr : read_at (f.seekg self.parameters_off).bytes (f.seekg self.parameters_off).pos 4 with
    | none =>
      rw [read_data_file_none hr]
      simp [IFStream.seekg]
    | some size =>
      rw [read_data_file_some hr]
      simp only
      obtain ⟨h1, h2, h3, h4, -⟩ := parse_parameters_loop_frame dex_types size self
        { f.seekg self.parameters_off with
          pos := (f.seekg self.parameters_off).pos + 4,
          trace := (f.seekg self.parameters_off).trace ++
            [StreamEvent.read (f.seekg self.parameters_off).pos 4] }
      split
      · rename_i self1 f2 heq
        rw [heq] at h1 h2 h3 h4
        simp only [IFStream.seekg, IFStream.tellg] at h1 h2 h3 h4 ⊢
        exact ⟨h1, h2, h3, h4, fun _ => trivial⟩
      · rename_i hne
        refine ⟨by simpa [IFStream.seekg] using h1, h2, h3, h4, ?_⟩
        intro ht
        exfalso
        exact hne _ _ (Prod.ext ht rfl)

theorem ProtoID_new_ok {τ : Type} (shorty_idx return_type_idx parameters_off : Nat)
    (f : IFStream) (dex_strings : DexStrings) (dex_types : DexTypes τ)
    (p : ProtoID τ) (f1 : IFStream)
    (h : ProtoID.new shorty_idx return_type_idx parameters_off f dex_strings dex_types
      = (.ok p, f1)) :
    f1.bytes = f.bytes ∧ f1.pos = f.pos ∧
    p.shorty_idx = [(shorty_idx, dex_strings.get_string_from_order shorty_idx)] ∧
    p.return_type_idx = [(return_type_idx, dex_types.get_type_from_order return_type_idx)] ∧
    p.parameters_off = parameters_off := by
  unfold ProtoID.new at h
  obtain ⟨h1, h2, h3, h4, h5⟩ := parse_parameters_frame
    (ProtoID.init shorty_idx return_type_idx parameters_off dex_strings dex_types) f dex_types
  split at h
  · rename_i self1 f2 heq
    rw [heq] at h1 h2 h3 h4 h5
    simp only [Prod.mk.injEq, Except.ok.injEq] at h
    obtain ⟨rfl, rfl⟩ := h
    exact ⟨h1, h5 rfl, h2, h3, h4⟩
  · simp at h

theorem ProtoID_new_bytes {τ : Type} (shorty_idx return_type_idx parameters_off : Nat)
    (f : IFStream) (dex_strings : DexStrings) (dex_types : DexTypes τ) :
    (ProtoID.new shorty_idx return_type_idx parameters_off f dex_strings dex_types).2.bytes
      = f.bytes := by
  unfold ProtoID.new
  have h1 := (parse_parameters_frame
    (ProtoID.init shorty_idx return_type_idx parameters_off dex_strings dex_types) f dex_types).1
  split
  · rename_i self1 f2 heq
    rw [heq] at h1
    exact h1
  · rename_i self1 f2 heq
    rw [heq] at h1
    exact h1

/-! ## `DexProtos`: what the table loop leaves behind -/

theorem parse_protos_loop_ok {τ : Type} :
    ∀ (n : Nat) (self : DexProtos τ) (f : IFStream) (self1 : DexProtos τ) (f1 : IFStream),
      DexProtos.parse_protos_loop n self f = (.ok true, self1, f1) →
      f1.bytes = f.bytes ∧ f1.pos = f.pos + 12 * n ∧
      ∃ ps : List (ProtoID τ), ps.length = n ∧
        self1 = { self with proto_ids := self.proto_ids ++ ps } ∧
        ∀ i, i < n → ∃ sh rt po g g1 p, ps[i]? = some p ∧
          read_at f.bytes (f.pos + 12 * i) 4 = some sh ∧
          sh < self.dex_strings.get_number_of_strings ∧
          read_at f.bytes (f.pos + 12 * i + 4) 4 = some rt ∧
          rt < self.dex_types.get_number_of_types ∧
          read_at f.bytes (f.pos + 12 * i + 8) 4 = some po ∧
          g.bytes = f.bytes ∧ g.pos = f.pos + 12 * i + 12 ∧
          ProtoID.new sh rt po g self.dex_strings self.dex_types = (.ok p, g1) ∧
          g1.pos = f.pos + 12 * i + 12 := by
  intro n
  induction n with
  | zero =>
    intro self f self1 f1 h
    simp only [DexProtos.parse_protos_loop, Prod.mk.injEq] at h
    obtain ⟨-, rfl, rfl⟩ := h
    exact ⟨rfl, rfl, [], rfl, by simp, by intro i hi; omega⟩
  | succ n ih =>
    intro self f self1 f1 h
    unfold DexProtos.parse_protos_loop at h
    cases hr1 : read_at f.bytes f.pos 4 with
    | none => rw [read_data_file_none hr1] at h; simp at h
    | some sh =>
      rw [read_data_file_some hr1] at h
      simp only at h
      by_cases hc1 : sh ≥ self.dex_strings.get_number_of_strings
      · simp [hc1] at h
      · rw [if_neg hc1] at h
        cases hr2 : read_at f.bytes (f.pos + 4) 4 with
        | none => rw [read_data_file_none (by simpa using hr2)] at h; simp at h
        | some rt =>
          rw [read_data_file_some (by simpa using hr2)] at h
          simp only at h
          by_cases hc2 : rt ≥ self.dex_types.get_number_of_types
          · simp [hc2] at h
          · rw [if_neg hc2] at h
            cases hr3 : read_at f.bytes (f.pos + 4 + 4) 4 with
            | none => rw [read_data_file_none (by simpa using hr3)] at h; simp at h
            | some po =>
              rw [read_data_file_some (by simpa using hr3)] at h
              simp only at h
              split at h
              · simp at h
              · rename_i proto f4 hnew
                obtain ⟨hb4, hp4, -⟩ := ProtoID_new_ok _ _ _ _ _ _ _ _ hnew
                simp only at hb4 hp4
                obtain ⟨hb, hp, ps, hlen, hself, hall⟩ := ih _ _ _ _ h
                refine ⟨by rw [hb, hb4], by rw [hp, hp4]; omega, proto :: ps, by simp [hlen],
                  by rw [hself]; simp, ?_⟩
                intro i hi
                cases i with
                | zero =>
                  have e3 : f.pos + 12 * 0 + 8 = f.pos + 4 + 4 := by omega
                  refine ⟨sh, rt, po, _, f4, proto, by simp, by simpa using hr1, by omega,
                    by simpa using hr2, by omega, by rw [e3]; exact hr3, ?_, ?_, hnew, ?_⟩
                  · rfl
                  · show f.pos + 4 + 4 + 4 = f.pos + 12 * 0 + 12
                    omega
                  · rw [hp4]
                | succ i =>
                  obtain ⟨sh2, rt2, po2, g, g1, q, hq, h1, h2, h3, h4, h5, h6, h7, h8, h9⟩ :=
                    hall i (by omega)
                  simp only at h1 h2 h3 h4 h5 h6 h7 h8 h9
                  rw [hb4] at h1 h3 h5 h6
                  rw [hp4] at h1 h3 h5 h7 h9
                  have e1 : f.pos + 4 + 4 + 4 + 12 * i = f.pos + 12 * (i + 1) := by omega
                  have e2 : f.pos + 4 + 4 + 4 + 12 * i + 4 = f.pos + 12 * (i + 1) + 4 := by omega
                  have e3 : f.pos + 4 + 4 + 4 + 12 * i + 8 = f.pos + 12 * (i + 1) + 8 := by omega
                  have e4 : f.pos + 4 + 4 + 4 + 12 * i + 12 = f.pos + 12 * (i + 1) + 12 := by
                    omega
                  rw [e1] at h1
                  rw [e2] at h3
                  rw [e3] at h5
                  rw [e4] at h7 h9
                  exact ⟨sh2, rt2, po2, g, g1, q, by simpa using hq, h1, h2, h3, h4, h5, h6, h7,
                    h8, h9⟩

theorem parse_protos_loop_append {τ : Type} :
    ∀ (i : Nat) (self : DexProtos τ) (f : IFStream) (selfi : DexProtos τ) (fi : IFStream),
      DexProtos.parse_protos_loop i self f = (.ok true, selfi, fi) →
      ∀ m, DexProtos.parse_protos_loop (i + m) self f = DexProtos.parse_protos_loop m selfi fi := by
  intro i
  induction i with
  | zero =>
    intro self f selfi fi h m
    simp only [DexProtos.parse_protos_loop, Prod.mk.injEq] at h
    obtain ⟨-, rfl, rfl⟩ := h
    simp
  | succ i ih =>
    intro self f selfi fi h m
    have e : i + 1 + m = (i + m) + 1 := by omega
    rw [e]
    generalize hR : DexProtos.parse_protos_loop m selfi fi = R
    unfold DexProtos.parse_protos_loop at h ⊢
    cases hr1 : read_at f.bytes f.pos 4 with
    | none => rw [read_data_file_none hr1] at h; simp at h
    | some sh =>
      rw [read_data_file_some hr1] at h ⊢
      simp only at h ⊢
      by_cases hc1 : sh ≥ self.dex_strings.get_number_of_strings
      · simp [hc1] at h
      · rw [if_neg hc1] at h ⊢
        cases hr2 : read_at f.bytes (f.pos + 4) 4 with
        | none => rw [read_data_file_none (by simpa using hr2)] at h; simp at h
        | some rt =>
          rw [read_data_file_some (by simpa using hr2)] at h ⊢
          simp only at h ⊢
          by_cases hc2 : rt ≥ self.dex_types.get_number_of_types
          · simp [hc2] at h
          · rw [if_neg hc2] at h ⊢
            cases hr3 : read_at f.bytes (f.pos + 4 + 4) 4 with
            | none => rw [read_data_file_none (by simpa using hr3)] at h; simp at h
            | some po =>
              rw [read_data_file_some (by simpa using hr3)] at h ⊢
              simp only at h ⊢
              split at h
              · simp at h
              · rename_i proto f4 hnew
                rw [← hR]
                exact ih _ _ _ _ h m

theorem DexProtos_new_ok {τ : Type} (f : IFStream) (file_size N T : Nat)
    (dex_strings : DexStrings) (dex_types : DexTypes τ) (pool : DexProtos τ) (f1 : IFStream)
    (h : DexProtos.new f file_size N T dex_strings dex_types = (.ok pool, f1)) :
    f1.bytes = f.bytes ∧ f1.pos = f.pos ∧
    ∃ ps : List (ProtoID τ), ps.length = N ∧
      pool = { number_of_protos := N, offset := T, dex_strings := dex_strings,
               dex_types := dex_types, proto_ids := ps } ∧
      ∀ i, i < N → ∃ sh rt po g g1 p, ps[i]? = some p ∧
        read_at f.bytes (T + 12 * i) 4 = some sh ∧
        sh < dex_strings.get_number_of_strings ∧
        read_at f.bytes (T + 12 * i + 4) 4 = some rt ∧
        rt < dex_types.get_number_of_types ∧
        read_at f.bytes (T + 12 * i + 8) 4 = some po ∧
        g.bytes = f.bytes ∧ g.pos = T + 12 * i + 12 ∧
        ProtoID.new sh rt po g dex_strings dex_types = (.ok p, g1) ∧
        g1.pos = T + 12 * i + 12 := by
  unfold DexProtos.new DexProtos.parse_protos at h
  simp only at h
  split at h
  · rename_i self1 f2 heq
    split at heq
    · rename_i self2 f3 hloop
      obtain ⟨hb, hp, ps, hlen, hself, hall⟩ := parse_protos_loop_ok _ _ _ _ _ hloop
      simp only [Prod.mk.injEq, Except.ok.injEq] at heq h
      obtain ⟨-, rfl, rfl⟩ := heq
      obtain ⟨rfl, rfl⟩ := h
      refine ⟨by simpa [IFStream.seekg] using hb, by simp [IFStream.seekg, IFStream.tellg],
        ps, hlen, by simpa using hself, ?_⟩
      simpa [IFStream.seekg] using hall
    · rename_i hne
      exact absurd heq (hne _ _)
  · simp at h
  · simp at h

/-! ## C1: order lookup over all declared entries -/

/-- C1, evaluated where the code departs from it. The table of `repeated_offset`
has two entries holding the same offset 8. Construction succeeds and
`get_number_of_strings()` is 2, `get_string_from_order(0)` is the text at offset
8, but `get_string_from_order(1)` is `nullptr`: the bound tested is the size of
the offset-keyed map (1), not the length of the order vector (2). -/
theorem get_string_from_order_repeated_offset :
    DexStrings.new Fixture.codec (Fixture.stream Fixture.repeated_offset 5) 12 2 0 =
        (.ok Fixture.repeated_offset_pool,
         { bytes := Fixture.repeated_offset, pos := 5,
           trace := [.seek 0, .read 0 4, .read 4 4, .seek 5] }) ∧
      Fixture.repeated_offset_pool.get_number_of_strings = 2 ∧
      read_at Fixture.repeated_offset (0 + 4 * 1) 4 = some 8 ∧
      Fixture.codec Fixture.repeated_offset 8 = "hi" ∧
      Fixture.repeated_offset_pool.ordered_strings.length = 2 ∧
      Fixture.repeated_offset_pool.get_string_from_order 0 = some "hi" ∧
      Fixture.repeated_offset_pool.get_string_from_order 1 = none :=
  ⟨rfl, rfl, rfl, rfl, rfl, rfl, rfl⟩

/-! ## C2: the two lookup paths agree -/

/-- C2. In a successfully built pool, whenever `get_string_from_order(i)` returns
a string `s`, the `i`-th table entry (the little-endian `u32` at `T + 4 * i`) is
readable, and `get_string_from_offset` at that offset returns the same `s`. -/
theorem get_string_from_offset_of_order (codec : StringCodec) (f : IFStream)
    (file_size N T : Nat) (pool : DexStrings) (f1 : IFStream)
    (hbuild : DexStrings.new codec f file_size N T = (.ok pool, f1))
    (i : Nat) (s : String) (hs : pool.get_string_from_order i = some s) :
    ∃ o, read_at f.bytes (T + 4 * i) 4 = some o ∧ pool.get_string_from_offset o = some s := by
  obtain ⟨offs, hlen, hread, -, rfl, -, -⟩ := DexStrings_new_ok _ _ _ _ _ _ _ hbuild
  simp only [DexStrings.get_string_from_order] at hs
  split at hs
  · simp at hs
  · cases hk : offs[i]? with
    | none => simp [hk] at hs
    | some key =>
      simp only [hk] at hs
      have hi : i < N := by
        have := (List.getElem?_eq_some_iff.1 hk).1
        omega
      exact ⟨key, by rw [hread i hi, hk], hs⟩

/-- C2 at the three-entry table "foo", "bar", "baz": `get_string_from_order(1)`
is "bar", entry 1 holds offset 17, and `get_string_from_offset(17)` is "bar". -/
theorem get_string_from_offset_of_order_witness :
    DexStrings.new Fixture.codec (Fixture.stream Fixture.three_strings 5) 27 3 0 =
        (.ok Fixture.three_strings_pool,
         { bytes := Fixture.three_strings, pos := 5,
           trace := [.seek 0, .read 0 4, .read 4 4, .read 8 4, .seek 5] }) ∧
      Fixture.three_strings_pool.get_string_from_order 1 = some "bar" ∧
      ∃ o, read_at (Fixture.stream Fixture.three_strings 5).bytes (0 + 4 * 1) 4 = some o ∧
        Fixture.three_strings_pool.get_string_from_offset o = some "bar" :=
  ⟨rfl, rfl,
   get_string_from_offset_of_order Fixture.codec (Fixture.stream Fixture.three_strings 5) 27 3 0
     Fixture.three_strings_pool _ rfl 1 "bar" rfl⟩

/-! ## C3: `get_all_strings` -/

/-- C3 fails as stated. The table of `descending_offsets` lists offset 11 ("b")
before offset 8 ("a"). `get_all_strings()` walks the map in key order and gives
"a" first, while `get_string_from_order(0)` is "b". -/
theorem get_all_strings_not_order_indexed :
    DexStrings.new Fixture.codec (Fixture.stream Fixture.descending_offsets 5) 14 2 0 =
        (.ok Fixture.descending_offsets_pool,
         { bytes := Fixture.descending_offsets, pos := 5,
           trace := [.seek 0, .read 0 4, .read 4 4, .seek 5] }) ∧
      Fixture.descending_offsets_pool.get_all_strings = ["a", "b"] ∧
      Fixture.descending_offsets_pool.get_string_from_order 0 = some "b" ∧
      ¬ (Fixture.descending_offsets_pool.get_all_strings.length =
            Fixture.descending_offsets_pool.get_number_of_strings ∧
          ∀ k, k < Fixture.descending_offsets_pool.get_number_of_strings →
            Fixture.descending_offsets_pool.get_string_from_order k =
              Fixture.descending_offsets_pool.get_all_strings[k]?) := by
  refine ⟨rfl, rfl, rfl, ?_⟩
  intro h
  exact absurd (h.2 0 (by decide)) (by decide)

/-- C3, amended. In a successfully built pool `get_all_strings()` lists the
texts decoded at the distinct offsets of the table, in ascending offset order.
When the offsets of the table are strictly increasing in file order, the list
is order-indexed: its length is the declared count and its `k`-th element is the
text returned by `get_string_from_order(k)`, for every `k` below the count. -/
theorem get_all_strings_ascending_offsets (codec : StringCodec) (f : IFStream)
    (file_size N T : Nat) (pool : DexStrings) (f1 : IFStream)
    (hbuild : DexStrings.new codec f file_size N T = (.ok pool, f1)) :
    (∃ keys : List Nat, keys.Pairwise (· < ·) ∧
        (∀ o, o ∈ keys ↔ ∃ i, i < N ∧ read_at f.bytes (T + 4 * i) 4 = some o) ∧
        pool.get_all_strings = keys.map (codec f.bytes)) ∧
      ((∀ i j a b, i < j → j < N → read_at f.bytes (T + 4 * i) 4 = some a →
          read_at f.bytes (T + 4 * j) 4 = some b → a < b) →
        pool.get_all_strings.length = pool.get_number_of_strings ∧
        ∀ k, k < pool.get_number_of_strings →
          ∃ s, pool.get_string_from_order k = some s ∧ pool.get_all_strings[k]? = some s) := by
  obtain ⟨offs, hlen, hread, -, rfl, -, -⟩ := DexStrings_new_ok _ _ _ _ _ _ _ hbuild
  obtain ⟨hsorted, hval, hmem⟩ :=
    insert_all_spec (codec f.bytes) offs [] (by simp) (by simp)
  constructor
  · refine ⟨(insert_all (codec f.bytes) [] offs).map Prod.fst, hsorted, ?_, ?_⟩
    · intro o
      rw [hmem o]
      simp only [List.map_nil, List.not_mem_nil, false_or]
      constructor
      · intro ho
        obtain ⟨i, hi, rfl⟩ := List.getElem_of_mem ho
        exact ⟨i, by omega, by rw [hread i (by omega), List.getElem?_eq_getElem hi]⟩
      · rintro ⟨i, hi, hr⟩
        rw [hread i hi] at hr
        obtain ⟨hi2, rfl⟩ := List.getElem?_eq_some_iff.1 hr
        exact List.getElem_mem _
    · simp only [DexStrings.get_all_strings, List.map_map]
      apply List.map_congr_left
      intro p hp
      exact hval p hp
  · intro hinc
    have hpw : offs.Pairwise (· < ·) := by
      rw [List.pairwise_iff_getElem]
      intro i j hi hj hij
      apply hinc i j _ _ hij (by omega)
      · rw [hread i (by omega), List.getElem?_eq_getElem hi]
      · rw [hread j (by omega), List.getElem?_eq_getElem hj]
    have hstr := insert_all_of_increasing (codec f.bytes) offs [] hpw (by simp)
    simp only [List.nil_append] at hstr
    simp only [DexStrings.get_all_strings, DexStrings.get_number_of_strings,
      DexStrings.get_string_from_order, hstr, List.length_map, hlen, List.map_map, true_and]
    intro k hk
    have hk2 : k < offs.length := by omega
    have hnot : ¬ k ≥ N := by omega
    refine ⟨codec f.bytes offs[k], ?_, ?_⟩
    · rw [if_neg hnot, List.getElem?_eq_getElem hk2]
      exact map_find_graph (codec f.bytes) offs offs[k] (List.getElem_mem _)
    · simp [List.getElem?_eq_getElem hk2]

/-- C3 (amended) at the three-entry table "foo", "bar", "baz", whose offsets 12,
17, 22 are increasing: `get_all_strings()` has three elements, in file order. -/
theorem get_all_strings_ascending_offsets_witness :
    DexStrings.new Fixture.codec (Fixture.stream Fixture.three_strings 5) 27 3 0 =
        (.ok Fixture.three_strings_pool,
         { bytes := Fixture.three_strings, pos := 5,
           trace := [.seek 0, .read 0 4, .read 4 4, .read 8 4, .seek 5] }) ∧
      Fixture.three_strings_pool.get_all_strings = ["foo", "bar", "baz"] ∧
      (Fixture.three_strings_pool.get_all_strings.length =
          Fixture.three_strings_pool.get_number_of_strings ∧
        ∀ k, k < Fixture.three_strings_pool.get_number_of_strings →
          ∃ s, Fixture.three_strings_pool.get_string_from_order k = some s ∧
            Fixture.three_strings_pool.get_all_strings[k]? = some s) := by
  refine ⟨rfl, rfl, ?_⟩
  refine (get_all_strings_ascending_offsets Fixture.codec
    (Fixture.stream Fixture.three_strings 5) 27 3 0 Fixture.three_strings_pool _ rfl).2 ?_
  intro i j a b hij hj ha hb
  have hj3 : j = 1 ∨ j = 2 := by omega
  rcases hj3 with rfl | rfl
  · obtain rfl : i = 0 := by omega
    have ea : a = 12 := by
      have : read_at Fixture.three_strings (0 + 4 * 0) 4 = some 12 := rfl
      simp only [Fixture.stream] at ha
      rw [this] at ha
      exact (Option.some.inj ha).symm
    have eb : b = 17 := by
      have : read_at Fixture.three_strings (0 + 4 * 1) 4 = some 17 := rfl
      simp only [Fixture.stream] at hb
      rw [this] at hb
      exact (Option.some.inj hb).symm
    omega
  · have eb : b = 22 := by
      have : read_at Fixture.three_strings (0 + 4 * 2) 4 = some 22 := rfl
      simp only [Fixture.stream] at hb
      rw [this] at hb
      exact (Option.some.inj hb).symm
    have hi2 : i = 0 ∨ i = 1 := by omega
    rcases hi2 with rfl | rfl
    · have : read_at Fixture.three_strings (0 + 4 * 0) 4 = some 12 := rfl
      simp only [Fixture.stream] at ha
      rw [this] at ha
      have := Option.some.inj ha
      omega
    · have : read_at Fixture.three_strings (0 + 4 * 1) 4 = some 17 := rfl
      simp only [Fixture.stream] at ha
      rw [this] at ha
      have := Option.some.inj ha
      omega

/-! ## C4: parameters in file order -/

/-- C4, evaluated where the code departs from it. Both parameter regions are
fully readable and hold indices below the type count 2.
* Region `size = 2, [1, 0]`: the claim gives parameter 0 the type of index 1
  (`V`); the code returns the type of index 0 (`I`), because the parameters are
  kept in a map keyed by type index and read back in key order.
* Region `size = 2, [0, 0]`: the claim gives 2 parameters; the code reports 1,
  because the second assignment to key 0 replaces the first. -/
theorem parse_parameters_swapped_repeated :
    Fixture.types.get_number_of_types = 2 ∧
    (read_at Fixture.params_swapped 4 4 = some 2 ∧
      read_at Fixture.params_swapped 8 2 = some 1 ∧
      read_at Fixture.params_swapped 10 2 = some 0 ∧
      ProtoID.new 0 1 4 (Fixture.stream Fixture.params_swapped 0) Fixture.three_strings_pool
          Fixture.types =
        (.ok Fixture.params_swapped_proto,
         { bytes := Fixture.params_swapped, pos := 0,
           trace := [.seek 4, .read 4 4, .read 8 2, .read 10 2, .seek 0] }) ∧
      Fixture.params_swapped_proto.get_parameter_type_by_order 0 = some "I" ∧
      Fixture.types.get_type_from_order 1 = some "V") ∧
    (read_at Fixture.params_repeated 4 4 = some 2 ∧
      read_at Fixture.params_repeated 8 2 = some 0 ∧
      read_at Fixture.params_repeated 10 2 = some 0 ∧
      ProtoID.new 0 1 4 (Fixture.stream Fixture.params_repeated 0) Fixture.three_strings_pool
          Fixture.types =
        (.ok Fixture.params_repeated_proto,
         { bytes := Fixture.params_repeated, pos := 0,
           trace := [.seek 4, .read 4 4, .read 8 2, .read 10 2, .seek 0] }) ∧
      Fixture.params_repeated_proto.get_number_of_parameters = 1) :=
  ⟨rfl, ⟨rfl, rfl, rfl, rfl, rfl, rfl⟩, ⟨rfl, rfl, rfl, rfl, rfl⟩⟩

/-! ## C5: parameter type indices are bounds-checked -/

/-- C5, evaluated where the code departs from it. The parameter region of
`params_out_of_range` holds the type index 5 while the type pool has 2 types.
The prototype is built all the same, storing the null result of
`get_type_from_order(5)` under key 5, and the whole `DexProtos` pool is built:
the `IncorrectTypeId` object of the bounds check is never thrown. -/
theorem parse_parameters_out_of_range_accepted :
    Fixture.types.get_number_of_types = 2 ∧
    read_at Fixture.params_out_of_range 12 4 = some 1 ∧
    read_at Fixture.params_out_of_range 16 2 = some 5 ∧
    ProtoID.new 0 0 12 (Fixture.stream Fixture.params_out_of_range 12)
        Fixture.three_strings_pool Fixture.types =
      (.ok Fixture.params_out_of_range_proto,
       { bytes := Fixture.params_out_of_range, pos := 12,
         trace := [.seek 12, .read 12 4, .read 16 2, .seek 12] }) ∧
    ∃ pool f1,
      DexProtos.new (Fixture.stream Fixture.params_out_of_range 0) 18 1 0
          Fixture.three_strings_pool Fixture.types = (.ok pool, f1) ∧
      pool.proto_ids = [Fixture.params_out_of_range_proto] :=
  ⟨rfl, rfl, rfl, rfl, _, _, rfl, rfl⟩

/-! ## C6: the return type index is checked before the parameter list is parsed -/

/-- C6. Let entries `0 .. i-1` of the prototype table be processed successfully
(the table loop, run for `i` iterations from the table offset, runs to its end
leaving the stream `fi`), and let entry `i < N` have a readable `shorty_idx`
below the string count and a readable `return_type_idx` not below the type
count. Then construction fails with `IncorrectTypeId` and returns no pool. The
stream is left right after the `return_type_idx` field, and since `fi` the only
operations on it were the two reads of `shorty_idx` and `return_type_idx`:
`parameters_off` was not read and no seek to a parameter region took place. -/
theorem parse_protos_return_type_out_of_bounds {τ : Type} (f : IFStream)
    (file_size N T : Nat) (dex_strings : DexStrings) (dex_types : DexTypes τ)
    (i : Nat) (hi : i < N) (selfi : DexProtos τ) (fi : IFStream)
    (hprev : DexProtos.parse_protos_loop i
        { number_of_protos := N, offset := T, dex_strings := dex_strings,
          dex_types := dex_types, proto_ids := [] } (f.seekg T) = (.ok true, selfi, fi))
    (sh rt : Nat) (hsh : read_at f.bytes (T + 12 * i) 4 = some sh)
    (hlt : sh < dex_strings.get_number_of_strings)
    (hrt : read_at f.bytes (T + 12 * i + 4) 4 = some rt)
    (hge : rt ≥ dex_types.get_number_of_types) :
    DexProtos.new f file_size N T dex_strings dex_types =
      (.error (.IncorrectTypeId "Error reading protos return_type_idx out of type bound"),
       { bytes := f.bytes, pos := T + 12 * i + 8,
         trace := fi.trace ++
           [StreamEvent.read (T + 12 * i) 4, StreamEvent.read (T + 12 * i + 4) 4] }) := by
  obtain ⟨hb, hp, ps, -, hself, -⟩ := parse_protos_loop_ok _ _ _ _ _ hprev
  simp only [IFStream.seekg] at hb hp
  obtain ⟨m, rfl⟩ : ∃ m, N = i + (m + 1) := ⟨N - i - 1, by omega⟩
  have happ := parse_protos_loop_append _ _ _ _ _ hprev (m + 1)
  have hs : selfi.dex_strings = dex_strings := by rw [hself]
  have ht : selfi.dex_types = dex_types := by rw [hself]
  have h1 : read_at fi.bytes fi.pos 4 = some sh := by rw [hb, hp]; exact hsh
  have h2 : read_at fi.bytes (fi.pos + 4) 4 = some rt := by rw [hb, hp]; exact hrt
  have hstep : DexProtos.parse_protos_loop (m + 1) selfi fi =
      (.error (.IncorrectTypeId "Error reading protos return_type_idx out of type bound"),
       selfi,
       { bytes := f.bytes, pos := T + 12 * i + 8,
         trace := fi.trace ++
           [StreamEvent.read (T + 12 * i) 4, StreamEvent.read (T + 12 * i + 4) 4] }) := by
    unfold DexProtos.parse_protos_loop
    rw [read_data_file_some h1]
    simp only
    rw [if_neg (by rw [hs]; omega)]
    rw [read_data_file_some (by simpa using h2)]
    simp only
    rw [if_pos (by rw [ht]; exact hge)]
    simp only [hb, hp, List.append_assoc, List.singleton_append, Prod.mk.injEq, true_and,
      IFStream.mk.injEq]
  unfold DexProtos.new DexProtos.parse_protos
  simp only [IFStream.tellg]
  rw [happ, hstep]

/-- C6 at the two-entry table of `return_type_out_of_range`: entry 0 is valid,
entry 1 has `return_type_idx = 7` over a pool of 2 types. The build fails with
`IncorrectTypeId`; the last operation on the stream is the read of the return
type index at position 16, and the cursor is left at 20. -/
theorem parse_protos_return_type_out_of_bounds_witness :
    DexProtos.parse_protos_loop 1
        { number_of_protos := 2, offset := 0, dex_strings := Fixture.three_strings_pool,
          dex_types := Fixture.types, proto_ids := [] }
        ((Fixture.stream Fixture.return_type_out_of_range 3).seekg 0) =
      (.ok true,
       { number_of_protos := 2, offset := 0, dex_strings := Fixture.three_strings_pool,
         dex_types := Fixture.types, proto_ids := [Fixture.return_type_first_proto] },
       { bytes := Fixture.return_type_out_of_range, pos := 12,
         trace := [.seek 0, .read 0 4, .read 4 4, .read 8 4] }) ∧
    DexProtos.new (Fixture.stream Fixture.return_type_out_of_range 3) 24 2 0
        Fixture.three_strings_pool Fixture.types =
      (.error (.IncorrectTypeId "Error reading protos return_type_idx out of type bound"),
       { bytes := Fixture.return_type_out_of_range, pos := 20,
         trace := [.seek 0, .read 0 4, .read 4 4, .read 8 4, .read 12 4, .read 16 4] }) :=
  ⟨rfl,
   parse_protos_return_type_out_of_bounds (Fixture.stream Fixture.return_type_out_of_range 3)
     24 2 0 Fixture.three_strings_pool Fixture.types 1 (by decide) _ _ rfl 1 7 rfl (by decide)
     rfl (by decide)⟩

/-! ## C7: the shorty index resolves in the string pool -/

/-- C7, evaluated where the code departs from it. The string pool of
`shorty_unresolved` is built successfully with declared count 2 from two table
entries holding the same offset, so `get_string_from_order(1)` is `nullptr`.
The prototype entry has `shorty_idx = 1`, which passes the check against
`get_number_of_strings()`; the `DexProtos` build succeeds and the prototype's
`get_shorty_idx()` is `nullptr`. -/
theorem parse_protos_shorty_unresolved :
    DexStrings.new Fixture.codec (Fixture.stream Fixture.shorty_unresolved 0) 24 2 0 =
      (.ok Fixture.repeated_offset_pool,
       { bytes := Fixture.shorty_unresolved, pos := 0,
         trace := [.seek 0, .read 0 4, .read 4 4, .seek 0] }) ∧
    read_at Fixture.shorty_unresolved 12 4 = some 1 ∧
    Fixture.repeated_offset_pool.get_number_of_strings = 2 ∧
    Fixture.repeated_offset_pool.get_string_from_order 1 = none ∧
    (∃ pool f1,
      DexProtos.new (Fixture.stream Fixture.shorty_unresolved 0) 24 1 12
          Fixture.repeated_offset_pool Fixture.types = (.ok pool, f1) ∧
      pool.get_proto_by_order 0 = some Fixture.shorty_unresolved_proto) ∧
    Fixture.shorty_unresolved_proto.get_shorty_idx = none :=
  ⟨rfl, rfl, rfl, rfl, ⟨_, _, rfl, rfl⟩, rfl⟩

/-! ## C8: the prototype table is read entry by entry, 12 bytes apart -/

/-- C8. After a successful build with declared count `N` and table offset `T`
the pool holds exactly `N` prototypes. For every `i < N` the three little-endian
`u32` fields at `T + 12 * i`, `T + 12 * i + 4` and `T + 12 * i + 8` are readable,
and `get_proto_by_order(i)` is the prototype that the `ProtoID` constructor
builds from them, called with the cursor right behind the entry; the
constructor hands the cursor back at that same position, which is where entry
`i + 1` starts. The prototype's `get_return_idx()` is the type pool's
`get_type_from_order(return_type_idx)`. -/
theorem parse_protos_entries {τ : Type} (f : IFStream) (file_size N T : Nat)
    (dex_strings : DexStrings) (dex_types : DexTypes τ) (pool : DexProtos τ) (f1 : IFStream)
    (hbuild : DexProtos.new f file_size N T dex_strings dex_types = (.ok pool, f1)) :
    pool.proto_ids.length = N ∧ pool.get_number_of_protos = N ∧
    ∀ i, i < N → ∃ sh rt po p g g1,
      read_at f.bytes (T + 12 * i) 4 = some sh ∧
      read_at f.bytes (T + 12 * i + 4) 4 = some rt ∧
      read_at f.bytes (T + 12 * i + 8) 4 = some po ∧
      pool.get_proto_by_order i = some p ∧
      g.bytes = f.bytes ∧ g.pos = T + 12 * (i + 1) ∧
      ProtoID.new sh rt po g dex_strings dex_types = (.ok p, g1) ∧
      g1.pos = T + 12 * (i + 1) ∧
      p.get_return_idx = dex_types.get_type_from_order rt := by
  obtain ⟨-, -, ps, hlen, rfl, hall⟩ := DexProtos_new_ok _ _ _ _ _ _ _ _ hbuild
  refine ⟨hlen, rfl, ?_⟩
  intro i hi
  obtain ⟨sh, rt, po, g, g1, p, hp, h1, -, h3, -, h5, h6, h7, h8, h9⟩ := hall i hi
  have hret := (ProtoID_new_ok _ _ _ _ _ _ _ _ h8).2.2.2.1
  refine ⟨sh, rt, po, p, g, g1, h1, h3, h5, ?_, h6, by rw [h7]; omega, h8, by rw [h9]; omega, ?_⟩
  · simp only [DexProtos.get_proto_by_order]
    rw [if_neg (by omega)]
    exact hp
  · simp only [ProtoID.get_return_idx, hret]

/-- C8 at the two-entry table of `two_protos`, whose first entry has a parameter
region at offset 24: the pool holds two prototypes, the second one read from
position 12. -/
theorem parse_protos_entries_witness :
    (∃ pool f1,
      DexProtos.new (Fixture.stream Fixture.two_protos 7) 32 2 0 Fixture.three_strings_pool
          Fixture.types = (.ok pool, f1) ∧
      pool.proto_ids = [Fixture.two_protos_first, Fixture.two_protos_second] ∧
      (pool.proto_ids.length = 2 ∧ pool.get_number_of_protos = 2 ∧
        ∀ i, i < 2 → ∃ sh rt po p g g1,
          read_at (Fixture.stream Fixture.two_protos 7).bytes (0 + 12 * i) 4 = some sh ∧
          read_at (Fixture.stream Fixture.two_protos 7).bytes (0 + 12 * i + 4) 4 = some rt ∧
          read_at (Fixture.stream Fixture.two_protos 7).bytes (0 + 12 * i + 8) 4 = some po ∧
          pool.get_proto_by_order i = some p ∧
          g.bytes = (Fixture.stream Fixture.two_protos 7).bytes ∧ g.pos = 0 + 12 * (i + 1) ∧
          ProtoID.new sh rt po g Fixture.three_strings_pool Fixture.types = (.ok p, g1) ∧
          g1.pos = 0 + 12 * (i + 1) ∧
          p.get_return_idx = Fixture.types.get_type_from_order rt)) :=
  ⟨_, _, rfl, rfl,
   parse_protos_entries (Fixture.stream Fixture.two_protos 7) 32 2 0 Fixture.three_strings_pool
     Fixture.types _ _ rfl⟩

/-! ## C9: no parameters when `parameters_off` is zero -/

/-- C9. With `parameters_off == 0`, `parse_parameters` returns `true` and leaves
both the prototype and the stream exactly as they were: the cursor is unchanged
and no operation is added to the stream's record. The constructor therefore
succeeds, and the prototype it yields has `get_number_of_parameters() == 0` and
`get_parameter_type_by_order(j) == nullptr` for every `j`. -/
theorem parse_parameters_zero_offset {τ : Type} (self : ProtoID τ) (shorty_idx
    return_type_idx : Nat) (f : IFStream) (dex_strings : DexStrings) (dex_types : DexTypes τ) :
    ProtoID.parse_parameters { self with parameters_off := 0 } f dex_types =
      (true, { self with parameters_off := 0 }, f) ∧
    ProtoID.new shorty_idx return_type_idx 0 f dex_strings dex_types =
      (.ok (ProtoID.init shorty_idx return_type_idx 0 dex_strings dex_types), f) ∧
    (ProtoID.init shorty_idx return_type_idx 0 dex_strings
      dex_types).get_number_of_parameters = 0 ∧
    ∀ j, (ProtoID.init shorty_idx return_type_idx 0 dex_strings
      dex_types).get_parameter_type_by_order j = none := by
  refine ⟨?_, ?_, rfl, fun j => rfl⟩
  · simp [ProtoID.parse_parameters]
  · simp [ProtoID.new, ProtoID.parse_parameters, ProtoID.init]

/-! ## C10: the cursor is handed back after a successful build -/

/-- C10. If `DexStrings` construction succeeds, the cursor afterwards is where
it was before; and if `DexProtos` construction succeeds, nested parameter parses
included, the cursor afterwards is where it was before. -/
theorem cursor_restored_on_success {τ : Type} (codec : StringCodec) (f g : IFStream)
    (file_size number_of_strings strings_offsets number_of_protos offset : Nat)
    (dex_strings : DexStrings) (dex_types : DexTypes τ) :
    (∀ pool f1, DexStrings.new codec f file_size number_of_strings strings_offsets
        = (.ok pool, f1) → f1.pos = f.pos) ∧
    (∀ pool g1, DexProtos.new g file_size number_of_protos offset dex_strings dex_types
        = (.ok pool, g1) → g1.pos = g.pos) := by
  constructor
  · intro pool f1 h
    obtain ⟨offs, -, -, -, -, -, hp⟩ := DexStrings_new_ok _ _ _ _ _ _ _ h
    exact hp
  · intro pool g1 h
    exact (DexProtos_new_ok _ _ _ _ _ _ _ _ h).2.1

/-- C10 at two concrete builds. The string pool of `three_strings` is built with
the cursor starting at 5 and the prototype pool of `two_protos`, whose first
entry has a parameter region, with the cursor starting at 7; each build leaves
the cursor where it started. -/
theorem cursor_restored_on_success_witness :
    (DexStrings.new Fixture.codec (Fixture.stream Fixture.three_strings 5) 32 3 0 =
        (.ok Fixture.three_strings_pool,
         { bytes := Fixture.three_strings, pos := 5,
           trace := [.seek 0, .read 0 4, .read 4 4, .read 8 4, .seek 5] }) ∧
      ({ bytes := Fixture.three_strings, pos := 5,
         trace := [.seek 0, .read 0 4, .read 4 4, .read 8 4, .seek 5] } : IFStream).pos =
        (Fixture.stream Fixture.three_strings 5).pos) ∧
    (∃ pool,
      DexProtos.new (Fixture.stream Fixture.two_protos 7) 32 2 0 Fixture.three_strings_pool
          Fixture.types =
        (.ok pool,
         { bytes := Fixture.two_protos, pos := 7,
           trace := [.seek 0, .read 0 4, .read 4 4, .read 8 4, .seek 24, .read 24 4,
             .read 28 2, .read 30 2, .seek 12, .read 12 4, .read 16 4, .read 20 4,
             .seek 7] }) ∧
      ({ bytes := Fixture.two_protos, pos := 7,
         trace := [.seek 0, .read 0 4, .read 4 4, .read 8 4, .seek 24, .read 24 4,
           .read 28 2, .read 30 2, .seek 12, .read 12 4, .read 16 4, .read 20 4,
           .seek 7] } : IFStream).pos = (Fixture.stream Fixture.two_protos 7).pos) :=
  ⟨⟨rfl,
    (cursor_restored_on_success Fixture.codec (Fixture.stream Fixture.three_strings 5)
      (Fixture.stream Fixture.two_protos 7) 32 3 0 2 0 Fixture.three_strings_pool
      Fixture.types).1 _ _ rfl⟩,
   ⟨_, rfl,
    (cursor_restored_on_success Fixture.codec (Fixture.stream Fixture.three_strings 5)
      (Fixture.stream Fixture.two_protos 7) 32 3 0 2 0 Fixture.three_strings_pool
      Fixture.types).2 _ _ rfl⟩⟩

/-! ## C11: the cursor after a failed build -/

/-- C11, evaluated where the code departs from it. Each build starts with the
cursor at 5 and fails; none hands the cursor back.
* String table with an offset past the file size: `OutOfBoundException`, cursor
  left at 8, behind the offending entry.
* Prototype table with `shorty_idx` past the string count: `IncorrectStringId`,
  cursor left at 4.
* Prototype table with `return_type_idx` past the type count: `IncorrectTypeId`,
  cursor left at 20.
* Prototype whose parameter region is cut short: `ParserReadingException` from
  the nested parse, cursor left inside the parameter region at 18.
The `return false` and `throw` statements leave the parse routines before the
`seekg(current_offset)` at their end. -/
theorem cursor_not_restored_on_failure :
    DexStrings.new Fixture.codec (Fixture.stream Fixture.offset_out_of_bounds 5) 12 2 0 =
      (.error (.OutOfBoundException "Error offset from string out of file bound"),
       { bytes := Fixture.offset_out_of_bounds, pos := 8,
         trace := [.seek 0, .read 0 4, .read 4 4] }) ∧
    DexProtos.new (Fixture.stream Fixture.shorty_out_of_range 5) 12 1 0
        Fixture.three_strings_pool Fixture.types =
      (.error (.IncorrectStringId "Error reading protos short_idx out of string bound"),
       { bytes := Fixture.shorty_out_of_range, pos := 4, trace := [.seek 0, .read 0 4] }) ∧
    DexProtos.new (Fixture.stream Fixture.return_type_out_of_range 5) 24 2 0
        Fixture.three_strings_pool Fixture.types =
      (.error (.IncorrectTypeId "Error reading protos return_type_idx out of type bound"),
       { bytes := Fixture.return_type_out_of_range, pos := 20,
         trace := [.seek 0, .read 0 4, .read 4 4, .read 8 4, .read 12 4, .read 16 4] }) ∧
    DexProtos.new (Fixture.stream Fixture.params_truncated 5) 18 1 0
        Fixture.three_strings_pool Fixture.types =
      (.error (.ParserReadingException "Error reading ProtoID"),
       { bytes := Fixture.params_truncated, pos := 18,
         trace := [.seek 0, .read 0 4, .read 4 4, .read 8 4, .seek 12, .read 12 4,
           .read 16 2, .read 18 2] }) :=
  ⟨rfl, rfl, rfl, rfl⟩

/-! ## C20: the two endianness tags -/

/-- C20. `REVERSE_ENDIAN_CONSTANT` is the 32-bit byte swap of `ENDIAN_CONSTANT`,
and conversely; the two constants differ. In terms of the reader: the four bytes
that read as `ENDIAN_CONSTANT` in little-endian order read as
`REVERSE_ENDIAN_CONSTANT` when taken in the opposite order. -/
theorem reverse_endian_constant_is_byte_swap :
    byte_swap32 DVMTypes.ENDIAN_CONSTANT = DVMTypes.REVERSE_ENDIAN_CONSTANT ∧
    byte_swap32 DVMTypes.REVERSE_ENDIAN_CONSTANT = DVMTypes.ENDIAN_CONSTANT ∧
    DVMTypes.ENDIAN_CONSTANT ≠ DVMTypes.REVERSE_ENDIAN_CONSTANT ∧
    le_value [0x78, 0x56, 0x34, 0x12] = DVMTypes.ENDIAN_CONSTANT ∧
    le_value [0x78, 0x56, 0x34, 0x12].reverse = DVMTypes.REVERSE_ENDIAN_CONSTANT := by
  refine ⟨by decide, by decide, by decide, by decide, by decide⟩

/-! ## `DexStrings`: how the table loop ends -/

theorem parse_strings_loop_append (codec : StringCodec) (file_size : Nat) :
    ∀ (i : Nat) (self : DexStrings) (f : IFStream) (selfi : DexStrings) (fi : IFStream),
      DexStrings.parse_strings_loop codec file_size i self f = (.ok true, selfi, fi) →
      ∀ m, DexStrings.parse_strings_loop codec file_size (i + m) self f =
        DexStrings.parse_strings_loop codec file_size m selfi fi := by
  intro i
  induction i with
  | zero =>
    intro self f selfi fi h m
    simp only [DexStrings.parse_strings_loop, Prod.mk.injEq] at h
    obtain ⟨-, rfl, rfl⟩ := h
    simp
  | succ i ih =>
    intro self f selfi fi h m
    have e : i + 1 + m = (i + m) + 1 := by omega
    rw [e]
    generalize hR : DexStrings.parse_strings_loop codec file_size m selfi fi = R
    unfold DexStrings.parse_strings_loop at h ⊢
    cases hr : read_at f.bytes f.pos 4 with
    | none => rw [read_data_file_none hr] at h; simp at h
    | some o =>
      rw [read_data_file_some hr] at h ⊢
      by_cases hgt : o > file_size
      · simp [hgt] at h
      · simp only [hgt, if_false] at h ⊢
        rw [← hR]
        exact ih _ _ _ _ h m

theorem parse_strings_loop_valid (codec : StringCodec) (file_size : Nat) :
    ∀ (k : Nat) (self : DexStrings) (f : IFStream),
      (∀ j, j < k → ∃ o, read_at f.bytes (f.pos + 4 * j) 4 = some o ∧ o ≤ file_size) →
      ∃ self1 f1, DexStrings.parse_strings_loop codec file_size k self f = (.ok true, self1, f1) := by
  intro k
  induction k with
  | zero => intro self f _; exact ⟨self, f, rfl⟩
  | succ k ih =>
    intro self f hv
    obtain ⟨o, hr, hle⟩ := hv 0 (by omega)
    unfold DexStrings.parse_strings_loop
    rw [read_data_file_some (by simpa using hr)]
    have hgt : ¬ o > file_size := by omega
    simp only [hgt, if_false]
    apply ih
    intro j hj
    obtain ⟨o2, hr2, hle2⟩ := hv (j + 1) (by omega)
    refine ⟨o2, ?_, hle2⟩
    rw [← hr2]
    simp only
    congr 1
    omega

theorem parse_strings_loop_read_fails (codec : StringCodec) (file_size m : Nat)
    (self : DexStrings) (f : IFStream) (h : read_at f.bytes f.pos 4 = none) :
    (DexStrings.parse_strings_loop codec file_size (m + 1) self f).1 = .ok false := by
  unfold DexStrings.parse_strings_loop
  rw [read_data_file_none h]

theorem parse_strings_loop_out_of_bound (codec : StringCodec) (file_size m : Nat)
    (self : DexStrings) (f : IFStream) (o : Nat) (h : read_at f.bytes f.pos 4 = some o)
    (hgt : o > file_size) :
    (DexStrings.parse_strings_loop codec file_size (m + 1) self f).1 =
      .error (.OutOfBoundException "Error offset from string out of file bound") := by
  unfold DexStrings.parse_strings_loop
  rw [read_data_file_some h]
  simp [hgt]

theorem DexStrings_new_fst (codec : StringCodec) (f : IFStream)
    (file_size N T : Nat) :
    (DexStrings.new codec f file_size N T).1 =
      match (DexStrings.parse_strings_loop codec file_size N
          { number_of_strings := N, offset := T, strings := [], ordered_strings := [] }
          (f.seekg T)).1 with
      | .ok true =>
        .ok (DexStrings.parse_strings_loop codec file_size N
          { number_of_strings := N, offset := T, strings := [], ordered_strings := [] }
          (f.seekg T)).2.1
      | .ok false => .error (.ParserReadingException "Error reading DEX strings")
      | .error e => .error e := by
  unfold DexStrings.new DexStrings.parse_strings
  simp only
  generalize DexStrings.parse_strings_loop codec file_size N
    { number_of_strings := N, offset := T, strings := [], ordered_strings := [] }
    (f.seekg T) = r
  obtain ⟨res, self1, f1⟩ := r
  cases res with
  | error e => rfl
  | ok b => cases b <;> rfl

/-- The table loop over `N` entries of which the first `k < N` are readable and
within the file size: it behaves as the loop started at entry `k`. -/
theorem parse_strings_loop_skip_valid (codec : StringCodec) (f : IFStream)
    (file_size N T k : Nat) (hk : k < N)
    (hvalid : ∀ j, j < k → ∃ o, read_at f.bytes (T + 4 * j) 4 = some o ∧ o ≤ file_size) :
    ∃ selfk fk, fk.bytes = f.bytes ∧ fk.pos = T + 4 * k ∧
      DexStrings.parse_strings_loop codec file_size N
          { number_of_strings := N, offset := T, strings := [], ordered_strings := [] }
          (f.seekg T) =
        DexStrings.parse_strings_loop codec file_size (N - k - 1 + 1) selfk fk := by
  obtain ⟨selfk, fk, hloop⟩ := parse_strings_loop_valid codec file_size k
    { number_of_strings := N, offset := T, strings := [], ordered_strings := [] }
    (f.seekg T) (by simpa [IFStream.seekg] using hvalid)
  obtain ⟨_, -, -, -, -, hb, hp⟩ := parse_strings_loop_ok _ _ _ _ _ _ _ hloop
  refine ⟨selfk, fk, by simpa [IFStream.seekg] using hb, by simpa [IFStream.seekg] using hp, ?_⟩
  have := parse_strings_loop_append codec file_size k _ _ _ _ hloop (N - k - 1 + 1)
  rw [← this]
  congr 1
  omega

/-! ## C12: a string table cut short -/

/-- C12. Let the declared count `N` exceed the number `k` of complete table
entries before the end of the stream: entries `0 .. k-1` are readable and hold
offsets not above the file size, and entry `k < N` cannot be read in full. Then
construction fails with `ParserReadingException` and yields no pool. -/
theorem parse_strings_truncated_table (codec : StringCodec) (f : IFStream)
    (file_size N T k : Nat) (hk : k < N)
    (hvalid : ∀ j, j < k → ∃ o, read_at f.bytes (T + 4 * j) 4 = some o ∧ o ≤ file_size)
    (htrunc : read_at f.bytes (T + 4 * k) 4 = none) :
    (DexStrings.new codec f file_size N T).1 =
      .error (.ParserReadingException "Error reading DEX strings") := by
  obtain ⟨selfk, fk, hb, hp, hloop⟩ :=
    parse_strings_loop_skip_valid codec f file_size N T k hk hvalid
  rw [DexStrings_new_fst, hloop,
    parse_strings_loop_read_fails codec file_size _ selfk fk (by rw [hb, hp]; exact htrunc)]

/-- C12 at `table_at_end`: the table at offset 4 has two complete entries before
the end of the 12-byte file and the declared count is 3. -/
theorem parse_strings_truncated_table_witness :
    read_at Fixture.table_at_end (4 + 4 * 0) 4 = some 0 ∧
    read_at Fixture.table_at_end (4 + 4 * 1) 4 = some 0 ∧
    read_at Fixture.table_at_end (4 + 4 * 2) 4 = none ∧
    (DexStrings.new Fixture.codec (Fixture.stream Fixture.table_at_end 0) 12 3 4).1 =
      .error (.ParserReadingException "Error reading DEX strings") :=
  ⟨rfl, rfl, rfl,
   parse_strings_truncated_table Fixture.codec (Fixture.stream Fixture.table_at_end 0) 12 3 4 2
     (by decide)
     (fun j hj => by
       have hj2 : j = 0 ∨ j = 1 := by omega
       rcases hj2 with rfl | rfl
       · exact ⟨0, rfl, by decide⟩
       · exact ⟨0, rfl, by decide⟩)
     rfl⟩

/-! ## C13: string offsets are checked against the file size -/

/-- C13. Let all `N` table entries be readable. Then construction fails with
`OutOfBoundException` exactly when some entry holds an offset strictly greater
than `file_size`, and it yields a pool exactly when every entry holds an offset
not above `file_size` (an offset equal to `file_size` is accepted). The two
outcomes exclude each other: a failed build returns no pool. -/
theorem parse_strings_out_of_bound_iff (codec : StringCodec) (f : IFStream)
    (file_size N T : Nat)
    (hread : ∀ j, j < N → ∃ o, read_at f.bytes (T + 4 * j) 4 = some o) :
    ((DexStrings.new codec f file_size N T).1 =
        .error (.OutOfBoundException "Error offset from string out of file bound") ↔
      ∃ j, j < N ∧ ∃ o, read_at f.bytes (T + 4 * j) 4 = some o ∧ o > file_size) ∧
    ((∃ pool, (DexStrings.new codec f file_size N T).1 = .ok pool) ↔
      ∀ j, j < N → ∀ o, read_at f.bytes (T + 4 * j) 4 = some o → o ≤ file_size) := by
  have hgood : (∀ j, j < N → ∀ o, read_at f.bytes (T + 4 * j) 4 = some o → o ≤ file_size) →
      ∃ pool, (DexStrings.new codec f file_size N T).1 = .ok pool := by
    intro hall
    obtain ⟨self1, f1, hloop⟩ := parse_strings_loop_valid codec file_size N
      { number_of_strings := N, offset := T, strings := [], ordered_strings := [] }
      (f.seekg T) (by
        intro j hj
        obtain ⟨o, ho⟩ := hread j hj
        exact ⟨o, by simpa [IFStream.seekg] using ho, hall j hj o ho⟩)
    exact ⟨self1, by rw [DexStrings_new_fst, hloop]⟩
  have hbad : (∃ j, j < N ∧ ∃ o, read_at f.bytes (T + 4 * j) 4 = some o ∧ o > file_size) →
      (DexStrings.new codec f file_size N T).1 =
        .error (.OutOfBoundException "Error offset from string out of file bound") := by
    intro hex
    classical
    have hex2 : ∃ j, j < N ∧ ∃ o, read_at f.bytes (T + 4 * j) 4 = some o ∧ o > file_size := hex
    let k := Nat.find hex2
    obtain ⟨hk, o, ho, hgt⟩ := Nat.find_spec hex2
    have hmin : ∀ j, j < k → ∃ o, read_at f.bytes (T + 4 * j) 4 = some o ∧ o ≤ file_size := by
      intro j hj
      obtain ⟨o2, ho2⟩ := hread j (by omega)
      refine ⟨o2, ho2, ?_⟩
      by_contra hc
      exact Nat.find_min hex2 hj ⟨by omega, o2, ho2, by omega⟩
    obtain ⟨selfk, fk, hb, hp, hloop⟩ :=
      parse_strings_loop_skip_valid codec f file_size N T k hk hmin
    rw [DexStrings_new_fst, hloop,
      parse_strings_loop_out_of_bound codec file_size _ selfk fk o (by rw [hb, hp]; exact ho) hgt]
  constructor
  · constructor
    · intro herr
      by_contra hne
      obtain ⟨pool, hpool⟩ := hgood (by
        intro j hj o ho
        by_contra hc
        exact hne ⟨j, hj, o, ho, by omega⟩)
      rw [hpool] at herr
      cases herr
    · exact hbad
  · constructor
    · rintro ⟨pool, hpool⟩ j hj o ho
      by_contra hc
      rw [hbad ⟨j, hj, o, ho, by omega⟩] at hpool
      cases hpool
    · exact hgood

/-- C13 at `offset_out_of_bounds`: both entries are readable, the second holds
offset 200 over a file of size 12, and the build fails with
`OutOfBoundException`. -/
theorem parse_strings_out_of_bound_iff_witness :
    read_at Fixture.offset_out_of_bounds (0 + 4 * 0) 4 = some 8 ∧
    read_at Fixture.offset_out_of_bounds (0 + 4 * 1) 4 = some 200 ∧
    (DexStrings.new Fixture.codec (Fixture.stream Fixture.offset_out_of_bounds 5) 12 2 0).1 =
      .error (.OutOfBoundException "Error offset from string out of file bound") :=
  ⟨rfl, rfl,
   (parse_strings_out_of_bound_iff Fixture.codec (Fixture.stream Fixture.offset_out_of_bounds 5)
     12 2 0
     (fun j hj => by
       have hj2 : j = 0 ∨ j = 1 := by omega
       rcases hj2 with rfl | rfl
       · exact ⟨8, rfl⟩
       · exact ⟨200, rfl⟩)).1.2 ⟨1, by decide, 200, rfl, by decide⟩⟩

/-! ## `std::map`: assignment through `operator[]` -/

theorem map_find_replace {β : Type} (m : StdMap β) (k : Nat) (v : β) (x : Nat) :
    map_find (m.map (fun p => if p.1 = k then (p.1, v) else p)) x =
      if x = k then (map_find m x).map (fun _ => v) else map_find m x := by
  induction m with
  | nil => simp [map_find]
  | cons p rest ih =>
    obtain ⟨k1, v1⟩ := p
    rw [List.map_cons]
    by_cases h1 : k1 = k
    · subst h1
      rw [if_pos rfl]
      by_cases h2 : k1 = x
      · subst h2
        simp [map_find]
      · have h3 : ¬ x = k1 := fun e => h2 e.symm
        rw [if_neg h3] at ih ⊢
        simp only [map_find, if_neg h2]
        exact ih
    · rw [if_neg h1]
      by_cases h2 : k1 = x
      · subst h2
        simp [map_find, h1]
      · simp only [map_find, if_neg h2]
        exact ih

theorem map_find_ordered_insert {β : Type} (m : StdMap β) (k : Nat) (v : β) (x : Nat)
    (hk : map_find m k = none) :
    map_find (ordered_insert k v m) x = if x = k then some v else map_find m x := by
  induction m with
  | nil =>
    by_cases h : k = x
    · subst h
      simp [ordered_insert, map_find]
    · have h2 : ¬ x = k := fun e => h e.symm
      simp [ordered_insert, map_find, h, h2]
  | cons p rest ih =>
    obtain ⟨k1, v1⟩ := p
    have hk1 : ¬ k1 = k := by
      intro e
      simp [map_find, e] at hk
    have hrest : map_find rest k = none := by
      simpa [map_find, hk1] using hk
    unfold ordered_insert
    by_cases hlt : k < k1
    · rw [if_pos hlt]
      by_cases h : k = x
      · subst h
        simp [map_find]
      · have h2 : ¬ x = k := fun e => h e.symm
        simp only [map_find, if_neg h, if_neg h2]
    · rw [if_neg hlt]
      by_cases h : k1 = x
      · subst h
        have h2 : ¬ k1 = k := hk1
        simp [map_find, h2]
      · simp only [map_find, if_neg h]
        exact ih hrest

theorem map_find_map_assign {β : Type} (m : StdMap β) (k : Nat) (v : β) (x : Nat) :
    map_find (map_assign m k v) x = if x = k then some v else map_find m x := by
  unfold map_assign
  cases h : map_find m k with
  | none => exact map_find_ordered_insert m k v x h
  | some w =>
    simp only
    rw [map_find_replace]
    by_cases hx : x = k
    · simp [hx, h]
    · simp [hx]

theorem mem_keys_map_assign {β : Type} (m : StdMap β) (k : Nat) (v : β) (x : Nat) :
    x ∈ (map_assign m k v).map Prod.fst ↔ x = k ∨ x ∈ m.map Prod.fst := by
  unfold map_assign
  cases h : map_find m k with
  | none => simpa using mem_keys_ordered_insert k v m x
  | some w =>
    have hk : k ∈ m.map Prod.fst := by
      by_contra hc
      rw [(map_find_eq_none_iff m k).2 hc] at h
      cases h
    have hkeys : (m.map (fun p => if p.1 = k then (p.1, v) else p)).map Prod.fst
        = m.map Prod.fst := by
      rw [List.map_map]
      apply List.map_congr_left
      intro p _
      by_cases hp : p.1 = k <;> simp [hp]
    simp only
    rw [hkeys]
    constructor
    · exact fun hx => Or.inr hx
    · rintro (rfl | hx)
      · exact hk
      · exact hx

theorem keys_sorted_map_assign {β : Type} (m : StdMap β) (k : Nat) (v : β)
    (hs : (m.map Prod.fst).Pairwise (· < ·)) :
    ((map_assign m k v).map Prod.fst).Pairwise (· < ·) := by
  unfold map_assign
  cases h : map_find m k with
  | none => exact keys_sorted_ordered_insert k v m hs ((map_find_eq_none_iff m k).1 h)
  | some w =>
    have hkeys : (m.map (fun p => if p.1 = k then (p.1, v) else p)).map Prod.fst
        = m.map Prod.fst := by
      rw [List.map_map]
      apply List.map_congr_left
      intro p _
      by_cases hp : p.1 = k <;> simp [hp]
    simp only
    rw [hkeys]
    exact hs

theorem values_map_assign {τ : Type} (g : Nat → Option τ) (m : StdMap (Option τ)) (k : Nat)
    (hv : ∀ p ∈ m, p.2 = g p.1) : ∀ p ∈ map_assign m k (g k), p.2 = g p.1 := by
  unfold map_assign
  cases h : map_find m k with
  | none =>
    intro p hp
    rcases (mem_ordered_insert k (g k) m p).1 hp with rfl | hp
    · rfl
    · exact hv p hp
  | some w =>
    intro p hp
    simp only [List.mem_map] at hp
    obtain ⟨q, hq, rfl⟩ := hp
    by_cases hqk : q.1 = k
    · simp [hqk]
    · simp only [hqk, if_false]
      exact hv q hq

theorem assign_all_spec {τ : Type} (g : Nat → Option τ) :
    ∀ (idx : List Nat) (m : StdMap (Option τ)),
      (m.map Prod.fst).Pairwise (· < ·) → (∀ p ∈ m, p.2 = g p.1) →
      ((assign_all g m idx).map Prod.fst).Pairwise (· < ·) ∧
      (∀ p ∈ assign_all g m idx, p.2 = g p.1) ∧
      (∀ x, x ∈ (assign_all g m idx).map Prod.fst ↔ x ∈ m.map Prod.fst ∨ x ∈ idx) := by
  intro idx
  induction idx with
  | nil => intro m hs hv; exact ⟨hs, hv, by simp [assign_all]⟩
  | cons t rest ih =>
    intro m hs hv
    have h := ih (map_assign m t (g t)) (keys_sorted_map_assign m t (g t) hs)
      (values_map_assign g m t hv)
    refine ⟨h.1, h.2.1, ?_⟩
    intro x
    have hx := h.2.2 x
    simp only [assign_all, List.foldl_cons] at hx ⊢
    rw [hx, mem_keys_map_assign, List.mem_cons]
    tauto

theorem map_find_assign_all {τ : Type} (g : Nat → Option τ) :
    ∀ (idx : List Nat) (m : StdMap (Option τ)) (x : Nat), x ∈ idx →
      map_find (assign_all g m idx) x = some (g x) := by
  intro idx
  induction idx using List.reverseRecOn with
  | nil => intro m x hx; cases hx
  | append_singleton rest t ih =>
    intro m x hx
    simp only [assign_all, List.foldl_append, List.foldl_cons, List.foldl_nil]
    rw [map_find_map_assign]
    by_cases hxt : x = t
    · simp [hxt]
    · simp only [hxt, if_false]
      rcases List.mem_append.1 hx with h | h
      · exact ih m x h
      · simp at h
        exact absurd h hxt

/-- A list that agrees entry by entry with a partial function on `0 .. n-1` is
the list of that function's defined values. -/
theorem filterMap_range_eq {α : Type} :
    ∀ (l : List α) (n : Nat) (F : Nat → Option α), l.length = n →
      (∀ j, j < n → F j = l[j]?) → (List.range n).filterMap F = l := by
  intro l
  induction l using List.reverseRecOn with
  | nil =>
    intro n F hlen _
    simp only [List.length_nil] at hlen
    subst hlen
    rfl
  | append_singleton rest a ih =>
    intro n F hlen hF
    simp only [List.length_append, List.length_singleton] at hlen
    subst hlen
    rw [List.range_succ, List.filterMap_append]
    have h1 := ih rest.length F rfl (by
      intro j hj
      rw [hF j (by omega), List.getElem?_append_left hj])
    have h2 : F rest.length = some a := by
      rw [hF rest.length (by omega)]
      simp
    rw [h1]
    simp [List.filterMap_cons, h2]

/-! ## `ProtoID`: outcome and contents of the parameter parse -/

theorem parse_parameters_loop_true_iff {τ : Type} (dex_types : DexTypes τ) :
    ∀ (n : Nat) (self : ProtoID τ) (f : IFStream),
      (ProtoID.parse_parameters_loop dex_types n self f).1 = true ↔
        ∀ j, j < n → ∃ t, read_at f.bytes (f.pos + 2 * j) 2 = some t := by
  intro n
  induction n with
  | zero =>
    intro self f
    simp [ProtoID.parse_parameters_loop]
  | succ n ih =>
    intro self f
    unfold ProtoID.parse_parameters_loop
    cases hr : read_at f.bytes f.pos 2 with
    | none =>
      rw [read_data_file_none hr]
      simp only [Bool.false_eq_true, false_iff, not_forall]
      exact ⟨0, by omega, by simp [hr]⟩
    | some type_id =>
      rw [read_data_file_some hr]
      simp only
      rw [ih]
      simp only
      constructor
      · intro h j hj
        cases j with
        | zero => exact ⟨type_id, by simpa using hr⟩
        | succ j =>
          obtain ⟨t, ht⟩ := h j (by omega)
          refine ⟨t, ?_⟩
          rw [← ht]
          congr 1
          omega
      · intro h j hj
        obtain ⟨t, ht⟩ := h (j + 1) (by omega)
        refine ⟨t, ?_⟩
        rw [← ht]
        congr 1
        omega

theorem parse_parameters_loop_ok {τ : Type} (dex_types : DexTypes τ) :
    ∀ (n : Nat) (self : ProtoID τ) (f : IFStream) (self1 : ProtoID τ) (f1 : IFStream),
      ProtoID.parse_parameters_loop dex_types n self f = (true, self1, f1) →
      ∃ idx : List Nat, idx.length = n ∧
        (∀ j, j < n → read_at f.bytes (f.pos + 2 * j) 2 = idx[j]?) ∧
        self1.parameters = assign_all dex_types.get_type_from_order self.parameters idx := by
  intro n
  induction n with
  | zero =>
    intro self f self1 f1 h
    simp only [ProtoID.parse_parameters_loop, Prod.mk.injEq] at h
    obtain ⟨-, rfl, rfl⟩ := h
    exact ⟨[], rfl, by intro j hj; omega, by simp [assign_all]⟩
  | succ n ih =>
    intro self f self1 f1 h
    unfold ProtoID.parse_parameters_loop at h
    cases hr : read_at f.bytes f.pos 2 with
    | none =>
      rw [read_data_file_none hr] at h
      simp at h
    | some type_id =>
      rw [read_data_file_some hr] at h
      simp only at h
      obtain ⟨idx, hlen, hread, hpar⟩ := ih _ _ _ _ h
      refine ⟨type_id :: idx, by simp [hlen], ?_, ?_⟩
      · intro j hj
        cases j with
        | zero => simpa using hr
        | succ j =>
          have := hread j (by omega)
          simp only at this
          rw [List.getElem?_cons_succ, ← this]
          congr 1
          omega
      · rw [hpar]
        simp [assign_all]

theorem parse_parameters_loop_types_count {τ : Type} (dex_types : DexTypes τ) (c : Nat) :
    ∀ (n : Nat) (self : ProtoID τ) (f : IFStream),
      ProtoID.parse_parameters_loop { dex_types with get_number_of_types := c } n self f =
        ProtoID.parse_parameters_loop dex_types n self f := by
  intro n
  induction n with
  | zero => intro self f; rfl
  | succ n ih =>
    intro self f
    unfold ProtoID.parse_parameters_loop
    cases hr : read_at f.bytes f.pos 2 with
    | none => rw [read_data_file_none hr]
    | some type_id =>
      rw [read_data_file_some hr]
      simp only
      exact ih _ _

/-- The outcome of `parse_parameters` for a non-zero `parameters_off`, in terms
of the loop run behind the size field. -/
theorem parse_parameters_nonzero {τ : Type} (self : ProtoID τ) (f : IFStream)
    (dex_types : DexTypes τ) (hpo : self.parameters_off ≠ 0) :
    (read_at f.bytes self.parameters_off 4 = none →
      (self.parse_parameters f dex_types).1 = false ∧
      (self.parse_parameters f dex_types).2.1 = self) ∧
    (∀ size, read_at f.bytes self.parameters_off 4 = some size →
      (self.parse_parameters f dex_types).1 =
        (ProtoID.parse_parameters_loop dex_types size self
          { bytes := f.bytes, pos := self.parameters_off + 4,
            trace := f.trace ++ [StreamEvent.seek self.parameters_off] ++
              [StreamEvent.read self.parameters_off 4] }).1 ∧
      (self.parse_parameters f dex_types).2.1 =
        (ProtoID.parse_parameters_loop dex_types size self
          { bytes := f.bytes, pos := self.parameters_off + 4,
            trace := f.trace ++ [StreamEvent.seek self.parameters_off] ++
              [StreamEvent.read self.parameters_off 4] }).2.1) := by
  constructor
  · intro hr
    unfold ProtoID.parse_parameters
    simp only [hpo, if_false]
    rw [read_data_file_none (by simpa [IFStream.seekg] using hr)]
    exact ⟨rfl, rfl⟩
  · intro size hr
    unfold ProtoID.parse_parameters
    simp only [hpo, if_false]
    rw [read_data_file_some (by simpa [IFStream.seekg] using hr)]
    simp only [IFStream.seekg]
    generalize ProtoID.parse_parameters_loop dex_types size self
      { bytes := f.bytes, pos := self.parameters_off + 4,
        trace := f.trace ++ [StreamEvent.seek self.parameters_off] ++
          [StreamEvent.read self.parameters_off 4] } = r
    obtain ⟨b, self1, f1⟩ := r
    cases b <;> exact ⟨rfl, rfl⟩

theorem parse_parameters_true_iff {τ : Type} (self : ProtoID τ) (f : IFStream)
    (dex_types : DexTypes τ) (hpo : self.parameters_off ≠ 0) :
    (self.parse_parameters f dex_types).1 = true ↔
      ∃ size, read_at f.bytes self.parameters_off 4 = some size ∧
        ∀ j, j < size → ∃ t, read_at f.bytes (self.parameters_off + 4 + 2 * j) 2 = some t := by
  obtain ⟨hnone, hsome⟩ := parse_parameters_nonzero self f dex_types hpo
  cases hr : read_at f.bytes self.parameters_off 4 with
  | none =>
    rw [(hnone hr).1]
    simp
  | some size =>
    rw [(hsome size hr).1, parse_parameters_loop_true_iff]
    simp

theorem ProtoID_new_fst {τ : Type} (shorty_idx return_type_idx parameters_off : Nat)
    (f : IFStream) (dex_strings : DexStrings) (dex_types : DexTypes τ) :
    (ProtoID.new shorty_idx return_type_idx parameters_off f dex_strings dex_types).1 =
      if ((ProtoID.init shorty_idx return_type_idx parameters_off dex_strings
            dex_types).parse_parameters f dex_types).1 = true then
        .ok ((ProtoID.init shorty_idx return_type_idx parameters_off dex_strings
              dex_types).parse_parameters f dex_types).2.1
      else .error (.ParserReadingException "Error reading ProtoID") := by
  unfold ProtoID.new
  generalize (ProtoID.init shorty_idx return_type_idx parameters_off dex_strings
    dex_types).parse_parameters f dex_types = r
  obtain ⟨b, self1, f1⟩ := r
  cases b <;> simp

theorem DexProtos_new_fst {τ : Type} (f : IFStream) (file_size N T : Nat)
    (dex_strings : DexStrings) (dex_types : DexTypes τ) :
    (DexProtos.new f file_size N T dex_strings dex_types).1 =
      match (DexProtos.parse_protos_loop N
          { number_of_protos := N, offset := T, dex_strings := dex_strings,
            dex_types := dex_types, proto_ids := [] } (f.seekg T)).1 with
      | .ok true =>
        .ok (DexProtos.parse_protos_loop N
          { number_of_protos := N, offset := T, dex_strings := dex_strings,
            dex_types := dex_types, proto_ids := [] } (f.seekg T)).2.1
      | .ok false => .error (.ParserReadingException "Error reading DEX protos")
      | .error e => .error e := by
  unfold DexProtos.new DexProtos.parse_protos
  simp only
  generalize DexProtos.parse_protos_loop N
    { number_of_protos := N, offset := T, dex_strings := dex_strings,
      dex_types := dex_types, proto_ids := [] } (f.seekg T) = r
  obtain ⟨res, self1, f1⟩ := r
  cases res with
  | error e => rfl
  | ok b => cases b <;> rfl

theorem nth_from_eq {τ : Type} :
    ∀ (m : StdMap (Option τ)) (i d : Nat),
      ProtoID.nth_from m i (i + d) = (m[d]?).bind Prod.snd := by
  intro m
  induction m with
  | nil => intro i d; simp [ProtoID.nth_from]
  | cons p rest ih =>
    intro i d
    obtain ⟨k, v⟩ := p
    cases d with
    | zero => simp [ProtoID.nth_from]
    | succ d =>
      have h1 : ¬ i = i + (d + 1) := by omega
      have h2 : i + (d + 1) = (i + 1) + d := by omega
      simp only [ProtoID.nth_from, if_neg h1, List.getElem?_cons_succ]
      rw [h2]
      exact ih (i + 1) d

/-- A successfully built prototype with a non-zero `parameters_off`: its
parameter map is the result of assigning, in file order, the type of each index
of the region. -/
theorem ProtoID_new_parameters {τ : Type} (shorty_idx return_type_idx parameters_off : Nat)
    (f : IFStream) (dex_strings : DexStrings) (dex_types : DexTypes τ)
    (p : ProtoID τ) (f1 : IFStream) (hpo : parameters_off ≠ 0)
    (h : ProtoID.new shorty_idx return_type_idx parameters_off f dex_strings dex_types
      = (.ok p, f1)) :
    ∃ n, read_at f.bytes parameters_off 4 = some n ∧
      (region_indices f.bytes parameters_off n).length = n ∧
      (∀ j, j < n → read_at f.bytes (parameters_off + 4 + 2 * j) 2 =
        (region_indices f.bytes parameters_off n)[j]?) ∧
      p.parameters = assign_all dex_types.get_type_from_order []
        (region_indices f.bytes parameters_off n) := by
  have hfst := ProtoID_new_fst shorty_idx return_type_idx parameters_off f dex_strings dex_types
  rw [h] at hfst
  simp only at hfst
  have hpo2 : (ProtoID.init shorty_idx return_type_idx parameters_off dex_strings
      dex_types).parameters_off ≠ 0 := hpo
  split at hfst
  · rename_i htrue
    obtain ⟨n, hn, -⟩ := (parse_parameters_true_iff _ f dex_types hpo2).1 htrue
    obtain ⟨h1, h2⟩ := (parse_parameters_nonzero _ f dex_types hpo2).2 n hn
    rw [h1] at htrue
    simp only [Except.ok.injEq] at hfst
    rw [h2] at hfst
    obtain ⟨idx, hlen, hread, hpar⟩ := parse_parameters_loop_ok dex_types n _ _ _ _
      (Prod.ext htrue (Prod.ext rfl rfl))
    simp only at hread
    have hidx : region_indices f.bytes parameters_off n = idx :=
      filterMap_range_eq idx n _ hlen hread
    refine ⟨n, hn, by rw [hidx]; exact hlen, by rw [hidx]; exact hread, ?_⟩
    rw [hidx, hfst, hpar]
    rfl
  · cases hfst

/-! ## C14: a parameter region cut short -/

/-- C14. Let entries `0 .. i-1` of the prototype table be processed successfully
and let entry `i < N` be readable with its two indices in range and a non-zero
`parameters_off` whose region is cut short: either the `u32` size cannot be read
in full, or the size is readable and one of the `u16` type indices it announces
cannot. Then `DexProtos` construction fails with the `ParserReadingException` of
the `ProtoID` constructor and yields no pool; the `ProtoID` constructor for that
entry fails wherever in the file the cursor stands, so no prototype exists for
it either. -/
theorem parse_protos_truncated_parameters {τ : Type} (f : IFStream)
    (file_size N T : Nat) (dex_strings : DexStrings) (dex_types : DexTypes τ)
    (i : Nat) (hi : i < N) (selfi : DexProtos τ) (fi : IFStream)
    (hprev : DexProtos.parse_protos_loop i
        { number_of_protos := N, offset := T, dex_strings := dex_strings,
          dex_types := dex_types, proto_ids := [] } (f.seekg T) = (.ok true, selfi, fi))
    (sh rt po : Nat) (hsh : read_at f.bytes (T + 12 * i) 4 = some sh)
    (hlt : sh < dex_strings.get_number_of_strings)
    (hrt : read_at f.bytes (T + 12 * i + 4) 4 = some rt)
    (hrlt : rt < dex_types.get_number_of_types)
    (hpo : read_at f.bytes (T + 12 * i + 8) 4 = some po) (hne : po ≠ 0)
    (htrunc : read_at f.bytes po 4 = none ∨
      ∃ size, read_at f.bytes po 4 = some size ∧
        ∃ j, j < size ∧ read_at f.bytes (po + 4 + 2 * j) 2 = none) :
    (DexProtos.new f file_size N T dex_strings dex_types).1 =
        .error (.ParserReadingException "Error reading ProtoID") ∧
      ∀ g : IFStream, g.bytes = f.bytes →
        (ProtoID.new sh rt po g dex_strings dex_types).1 =
          .error (.ParserReadingException "Error reading ProtoID") := by
  have hctor : ∀ g : IFStream, g.bytes = f.bytes →
      (ProtoID.new sh rt po g dex_strings dex_types).1 =
        .error (.ParserReadingException "Error reading ProtoID") := by
    intro g hg
    rw [ProtoID_new_fst]
    have hpo2 : (ProtoID.init sh rt po dex_strings dex_types).parameters_off ≠ 0 := hne
    have hfalse : ¬ ((ProtoID.init sh rt po dex_strings dex_types).parse_parameters g
        dex_types).1 = true := by
      intro htrue
      obtain ⟨size, hsize, hall⟩ := (parse_parameters_true_iff _ g dex_types hpo2).1 htrue
      rw [hg] at hsize hall
      have hsize2 : read_at f.bytes po 4 = some size := hsize
      rcases htrunc with hnone | ⟨size2, hs2, j, hj, hjnone⟩
      · rw [hnone] at hsize2
        cases hsize2
      · rw [hs2] at hsize2
        obtain rfl := Option.some.inj hsize2
        obtain ⟨t, ht⟩ := hall j hj
        have ht2 : read_at f.bytes (po + 4 + 2 * j) 2 = some t := ht
        rw [hjnone] at ht2
        cases ht2
    rw [if_neg hfalse]
  refine ⟨?_, hctor⟩
  obtain ⟨hb, hp, ps, -, hself, -⟩ := parse_protos_loop_ok _ _ _ _ _ hprev
  simp only [IFStream.seekg] at hb hp
  obtain ⟨m, rfl⟩ : ∃ m, N = i + (m + 1) := ⟨N - i - 1, by omega⟩
  have happ := parse_protos_loop_append _ _ _ _ _ hprev (m + 1)
  have hs : selfi.dex_strings = dex_strings := by rw [hself]
  have ht : selfi.dex_types = dex_types := by rw [hself]
  have h1 : read_at fi.bytes fi.pos 4 = some sh := by rw [hb, hp]; exact hsh
  have h2 : read_at fi.bytes (fi.pos + 4) 4 = some rt := by rw [hb, hp]; exact hrt
  have h3 : read_at fi.bytes (fi.pos + 4 + 4) 4 = some po := by
    rw [hb, hp]
    have e : T + 12 * i + 4 + 4 = T + 12 * i + 8 := by omega
    rw [e]
    exact hpo
  have hstep : (DexProtos.parse_protos_loop (m + 1) selfi fi).1 =
      .error (.ParserReadingException "Error reading ProtoID") := by
    unfold DexProtos.parse_protos_loop
    rw [read_data_file_some h1]
    simp only
    rw [if_neg (by rw [hs]; omega)]
    rw [read_data_file_some (by simpa using h2)]
    simp only
    rw [if_neg (by rw [ht]; omega)]
    rw [read_data_file_some (by simpa using h3)]
    simp only
    have hc := hctor
      { bytes := fi.bytes, pos := fi.pos + 4 + 4 + 4,
        trace := fi.trace ++ [StreamEvent.read fi.pos 4] ++
          [StreamEvent.read (fi.pos + 4) 4] ++ [StreamEvent.read (fi.pos + 4 + 4) 4] } hb
    rw [hs, ht]
    generalize ProtoID.new sh rt po
      { bytes := fi.bytes, pos := fi.pos + 4 + 4 + 4,
        trace := fi.trace ++ [StreamEvent.read fi.pos 4] ++
          [StreamEvent.read (fi.pos + 4) 4] ++ [StreamEvent.read (fi.pos + 4 + 4) 4] }
      dex_strings dex_types = r at hc ⊢
    obtain ⟨res, f4⟩ := r
    simp only at hc
    subst hc
    rfl
  rw [DexProtos_new_fst, happ, hstep]

/-- C14 at `params_truncated`: the single entry is valid up to its parameter
region at offset 12, which declares two type indices but holds one. -/
theorem parse_protos_truncated_parameters_witness :
    read_at Fixture.params_truncated 12 4 = some 2 ∧
    read_at Fixture.params_truncated (12 + 4 + 2 * 1) 2 = none ∧
    (DexProtos.new (Fixture.stream Fixture.params_truncated 5) 18 1 0
        Fixture.three_strings_pool Fixture.types).1 =
      .error (.ParserReadingException "Error reading ProtoID") :=
  ⟨rfl, rfl,
   (parse_protos_truncated_parameters (Fixture.stream Fixture.params_truncated 5) 18 1 0
     Fixture.three_strings_pool Fixture.types 0 (by decide) _ _ rfl 0 0 12 rfl (by decide) rfl
     (by decide) rfl (by decide) (Or.inr ⟨2, rfl, 1, by decide, rfl⟩)).1⟩

/-! ## C17: the parameter type bound has no effect -/

/-- C17. For a non-zero `parameters_off`, `parse_parameters` returns `true`
exactly when the `u32` size and all the `u16` type indices it announces can be
read in full. The number of types plays no part: replacing it by any other
number leaves the result unchanged. After a successful parse every type index
`t` of the region, in range or not, has been handed to `get_type_from_order` and
the result is stored under key `t`. -/
theorem parse_parameters_ignores_type_bound {τ : Type} (self : ProtoID τ) (f : IFStream)
    (dex_types : DexTypes τ) (hpo : self.parameters_off ≠ 0) :
    ((self.parse_parameters f dex_types).1 = true ↔
      ∃ size, read_at f.bytes self.parameters_off 4 = some size ∧
        ∀ j, j < size → ∃ t, read_at f.bytes (self.parameters_off + 4 + 2 * j) 2 = some t) ∧
    (∀ c, self.parse_parameters f { dex_types with get_number_of_types := c } =
      self.parse_parameters f dex_types) ∧
    ((self.parse_parameters f dex_types).1 = true →
      ∀ size, read_at f.bytes self.parameters_off 4 = some size →
        ∀ j, j < size → ∀ t, read_at f.bytes (self.parameters_off + 4 + 2 * j) 2 = some t →
          map_find (self.parse_parameters f dex_types).2.1.parameters t =
            some (dex_types.get_type_from_order t)) := by
  refine ⟨parse_parameters_true_iff self f dex_types hpo, ?_, ?_⟩
  · intro c
    unfold ProtoID.parse_parameters
    simp only [hpo, if_false]
    cases hr : read_at (f.seekg self.parameters_off).bytes (f.seekg self.parameters_off).pos 4 with
    | none => rw [read_data_file_none hr]
    | some size =>
      rw [read_data_file_some hr]
      simp only
      rw [parse_parameters_loop_types_count]
  · intro htrue size hsize j hj t ht
    obtain ⟨h1, h2⟩ := (parse_parameters_nonzero self f dex_types hpo).2 size hsize
    rw [h1] at htrue
    rw [h2]
    obtain ⟨idx, hlen, hread, hpar⟩ := parse_parameters_loop_ok dex_types size _ _ _ _
      (Prod.ext htrue (Prod.ext rfl rfl))
    simp only at hread
    rw [hpar]
    apply map_find_assign_all
    have := hread j hj
    rw [ht] at this
    obtain ⟨hj2, rfl⟩ := List.getElem?_eq_some_iff.1 this.symm
    exact List.getElem_mem _

/-- C17 at `params_out_of_range`: the region at offset 12 holds the single type
index 5 over a pool of 2 types; the parse returns `true` and key 5 is stored
with the null result of `get_type_from_order(5)`. -/
theorem parse_parameters_ignores_type_bound_witness :
    Fixture.types.get_number_of_types = 2 ∧
    read_at Fixture.params_out_of_range 12 4 = some 1 ∧
    read_at Fixture.params_out_of_range (12 + 4 + 2 * 0) 2 = some 5 ∧
    Fixture.types.get_type_from_order 5 = none ∧
    ((ProtoID.init 0 0 12 Fixture.three_strings_pool Fixture.types).parse_parameters
      (Fixture.stream Fixture.params_out_of_range 12) Fixture.types).1 = true ∧
    map_find ((ProtoID.init 0 0 12 Fixture.three_strings_pool Fixture.types).parse_parameters
      (Fixture.stream Fixture.params_out_of_range 12) Fixture.types).2.1.parameters 5 =
        some (Fixture.types.get_type_from_order 5) :=
  ⟨rfl, rfl, rfl, rfl, rfl,
   (parse_parameters_ignores_type_bound
     (ProtoID.init 0 0 12 Fixture.three_strings_pool Fixture.types)
     (Fixture.stream Fixture.params_out_of_range 12) Fixture.types (by decide)).2.2 rfl 1 rfl 0
       (by decide) 5 rfl⟩

/-! ## C19: parameters come back by ascending type index -/

/-- C19. Let a prototype be built successfully from a non-zero `parameters_off`
whose region declares size `n`. Its parameter map has one entry for each
distinct type index of the region: the keys are strictly ascending, they are
exactly the indices that occur in the region, and their number, which is what
`get_number_of_parameters()` returns, is the number of distinct indices and at
most `n`. `get_parameter_type_by_order(j)` is the type pool's answer for the
`j`-th smallest of these indices, whatever their order in the file, and is
absent for `j` at or beyond their number. -/
theorem parameters_by_ascending_index {τ : Type} (shorty_idx return_type_idx
    parameters_off : Nat) (f : IFStream) (dex_strings : DexStrings) (dex_types : DexTypes τ)
    (p : ProtoID τ) (f1 : IFStream) (hpo : parameters_off ≠ 0)
    (hnew : ProtoID.new shorty_idx return_type_idx parameters_off f dex_strings dex_types
      = (.ok p, f1)) :
    ∃ (n : Nat) (keys : List Nat), read_at f.bytes parameters_off 4 = some n ∧
      (region_indices f.bytes parameters_off n).length = n ∧
      keys.Pairwise (· < ·) ∧
      (∀ x, x ∈ keys ↔ x ∈ region_indices f.bytes parameters_off n) ∧
      p.get_number_of_parameters = keys.length ∧
      keys.length = (region_indices f.bytes parameters_off n).dedup.length ∧
      keys.length ≤ n ∧
      (∀ j, p.get_parameter_type_by_order j = (keys[j]?).bind dex_types.get_type_from_order) ∧
      (∀ j, keys.length ≤ j → p.get_parameter_type_by_order j = none) := by
  obtain ⟨n, hn, hlen, -, hpar⟩ := ProtoID_new_parameters _ _ _ _ _ _ _ _ hpo hnew
  obtain ⟨hsorted, hval, hmem⟩ := assign_all_spec dex_types.get_type_from_order
    (region_indices f.bytes parameters_off n) [] (by simp) (by simp)
  rw [← hpar] at hsorted hval hmem
  have hby : ∀ j, p.get_parameter_type_by_order j =
      ((p.parameters.map Prod.fst)[j]?).bind dex_types.get_type_from_order := by
    intro j
    have := nth_from_eq p.parameters 0 j
    rw [Nat.zero_add] at this
    rw [ProtoID.get_parameter_type_by_order, this, List.getElem?_map]
    cases hq : p.parameters[j]? with
    | none => rfl
    | some q =>
      simp only [Option.bind_some, Option.map_some', Option.some_bind]
      obtain ⟨hj, rfl⟩ := List.getElem?_eq_some_iff.1 hq
      exact hval _ (List.getElem_mem _)
  have hnodup : (p.parameters.map Prod.fst).Nodup := hsorted.imp (fun h => Nat.ne_of_lt h)
  have hperm : (p.parameters.map Prod.fst).Perm
      (region_indices f.bytes parameters_off n).dedup := by
    rw [List.perm_ext_iff_of_nodup hnodup (List.nodup_dedup _)]
    intro x
    rw [hmem x, List.mem_dedup]
    simp
  have hcount := hperm.length_eq
  refine ⟨n, p.parameters.map Prod.fst, hn, hlen, hsorted, ?_, by
    simp [ProtoID.get_number_of_parameters], hcount, ?_, hby, ?_⟩
  · intro x
    rw [hmem x]
    simp
  · rw [hcount]
    have := (List.dedup_sublist (region_indices f.bytes parameters_off n)).length_le
    omega
  · intro j hj
    rw [hby j, List.getElem?_eq_none hj]
    rfl

/-- C19 at `params_swapped`, whose region lists the indices 1, 0: the prototype
has two parameters, returned as the type of index 0 and then the type of
index 1. -/
theorem parameters_by_ascending_index_witness :
    ProtoID.new 0 1 4 (Fixture.stream Fixture.params_swapped 0) Fixture.three_strings_pool
        Fixture.types =
      (.ok Fixture.params_swapped_proto,
       { bytes := Fixture.params_swapped, pos := 0,
         trace := [.seek 4, .read 4 4, .read 8 2, .read 10 2, .seek 0] }) ∧
    region_indices Fixture.params_swapped 4 2 = [1, 0] ∧
    Fixture.params_swapped_proto.get_parameter_type_by_order 0 =
      Fixture.types.get_type_from_order 0 ∧
    Fixture.params_swapped_proto.get_parameter_type_by_order 1 =
      Fixture.types.get_type_from_order 1 ∧
    ∃ (n : Nat) (keys : List Nat), read_at (Fixture.stream Fixture.params_swapped 0).bytes 4 4 = some n ∧
      (region_indices (Fixture.stream Fixture.params_swapped 0).bytes 4 n).length = n ∧
      keys.Pairwise (· < ·) ∧
      (∀ x, x ∈ keys ↔ x ∈ region_indices (Fixture.stream Fixture.params_swapped 0).bytes 4 n) ∧
      Fixture.params_swapped_proto.get_number_of_parameters = keys.length ∧
      keys.length = (region_indices (Fixture.stream Fixture.params_swapped 0).bytes 4 n).dedup.length ∧
      keys.length ≤ n ∧
      (∀ j, Fixture.params_swapped_proto.get_parameter_type_by_order j =
        (keys[j]?).bind Fixture.types.get_type_from_order) ∧
      (∀ j, keys.length ≤ j →
        Fixture.params_swapped_proto.get_parameter_type_by_order j = none) :=
  ⟨rfl, rfl, rfl, rfl,
   parameters_by_ascending_index 0 1 4 (Fixture.stream Fixture.params_swapped 0)
     Fixture.three_strings_pool Fixture.types Fixture.params_swapped_proto _ (by decide) rfl⟩

/-! ## `DexStrings`: the built pool in terms of the table -/

/-- A successfully built pool, with the offsets named as the table lists them. -/
theorem DexStrings_new_table (codec : StringCodec) (f : IFStream) (file_size N T : Nat)
    (pool : DexStrings) (f1 : IFStream)
    (h : DexStrings.new codec f file_size N T = (.ok pool, f1)) :
    (table_offsets f.bytes T N).length = N ∧
    (∀ j, j < N → read_at f.bytes (T + 4 * j) 4 = (table_offsets f.bytes T N)[j]?) ∧
    pool = { number_of_strings := N, offset := T,
             strings := insert_all (codec f.bytes) [] (table_offsets f.bytes T N),
             ordered_strings := table_offsets f.bytes T N } := by
  obtain ⟨offs, hlen, hread, -, hpool, -, -⟩ := DexStrings_new_ok _ _ _ _ _ _ _ h
  have htab : table_offsets f.bytes T N = offs := filterMap_range_eq offs N _ hlen hread
  rw [htab]
  exact ⟨hlen, hread, hpool⟩

theorem insert_all_length (g : Nat → String) (offs : List Nat) :
    (insert_all g [] offs).length = offs.dedup.length := by
  obtain ⟨hsorted, -, hmem⟩ := insert_all_spec g offs [] (by simp) (by simp)
  have hnodup : ((insert_all g [] offs).map Prod.fst).Nodup :=
    hsorted.imp (fun h => Nat.ne_of_lt h)
  have hperm : ((insert_all g [] offs).map Prod.fst).Perm offs.dedup := by
    rw [List.perm_ext_iff_of_nodup hnodup (List.nodup_dedup _)]
    intro x
    rw [hmem x, List.mem_dedup]
    simp
  have := hperm.length_eq
  simpa using this

theorem map_find_insert_all_of_mem (g : Nat → String) (offs : List Nat) (x : Nat)
    (hx : x ∈ offs) : ∃ s, map_find (insert_all g [] offs) x = some s := by
  obtain ⟨-, -, hmem⟩ := insert_all_spec g offs [] (by simp) (by simp)
  cases h : map_find (insert_all g [] offs) x with
  | some s => exact ⟨s, rfl⟩
  | none =>
    exfalso
    rw [map_find_eq_none_iff] at h
    exact h ((hmem x).2 (Or.inr hx))

/-! ## C18: order lookup and repeated offsets -/

/-- C18. In a successfully built pool with declared count `N` the order vector
has exactly `N` entries (the offsets of the table in file order), the
offset-keyed map has as many entries as the table has distinct offsets, and
`get_string_from_order(i)` returns a string exactly when `i` is below that
number. Hence it returns a string for all `i < N` exactly when the offsets of
the table are pairwise distinct. -/
theorem get_string_from_order_present_iff (codec : StringCodec) (f : IFStream)
    (file_size N T : Nat) (pool : DexStrings) (f1 : IFStream)
    (hbuild : DexStrings.new codec f file_size N T = (.ok pool, f1)) :
    pool.ordered_strings.length = N ∧
    pool.ordered_strings = table_offsets f.bytes T N ∧
    pool.strings.length = (table_offsets f.bytes T N).dedup.length ∧
    (∀ i, (∃ s, pool.get_string_from_order i = some s) ↔
      i < (table_offsets f.bytes T N).dedup.length) ∧
    ((∀ i, i < N → ∃ s, pool.get_string_from_order i = some s) ↔
      (table_offsets f.bytes T N).Nodup) := by
  obtain ⟨hlen, -, rfl⟩ := DexStrings_new_table _ _ _ _ _ _ _ hbuild
  have hsize := insert_all_length (codec f.bytes) (table_offsets f.bytes T N)
  have hle : (table_offsets f.bytes T N).dedup.length ≤ N := by
    have := (List.dedup_sublist (table_offsets f.bytes T N)).length_le
    omega
  have hiff : ∀ i, (∃ s, DexStrings.get_string_from_order
      { number_of_strings := N, offset := T,
        strings := insert_all (codec f.bytes) [] (table_offsets f.bytes T N),
        ordered_strings := table_offsets f.bytes T N } i = some s) ↔
      i < (table_offsets f.bytes T N).dedup.length := by
    intro i
    simp only [DexStrings.get_string_from_order, hsize]
    constructor
    · rintro ⟨s, hs⟩
      by_contra hc
      rw [if_pos (by omega)] at hs
      cases hs
    · intro hi
      rw [if_neg (by omega)]
      have hi2 : i < (table_offsets f.bytes T N).length := by omega
      rw [List.getElem?_eq_getElem hi2]
      exact map_find_insert_all_of_mem _ _ _ (List.getElem_mem _)
  refine ⟨hlen, rfl, hsize, hiff, ?_⟩
  constructor
  · intro hall
    have hN : (table_offsets f.bytes T N).dedup.length = (table_offsets f.bytes T N).length := by
      rcases Nat.eq_zero_or_pos N with h0 | hpos
      · omega
      · have := (hiff (N - 1)).1 (hall (N - 1) (by omega))
        omega
    exact List.dedup_eq_self.1
      ((List.dedup_sublist (table_offsets f.bytes T N)).eq_of_length hN)
  · intro hnd i hi
    apply (hiff i).2
    rw [hnd.dedup]
    omega

/-- C18 at `repeated_offset`: two table entries with the same offset give an
order vector of length 2 and a map of size 1, and only position 0 resolves. -/
theorem get_string_from_order_present_iff_witness :
    table_offsets (Fixture.stream Fixture.repeated_offset 5).bytes 0 2 = [8, 8] ∧
    Fixture.repeated_offset_pool.ordered_strings.length = 2 ∧
    Fixture.repeated_offset_pool.ordered_strings =
      table_offsets (Fixture.stream Fixture.repeated_offset 5).bytes 0 2 ∧
    Fixture.repeated_offset_pool.strings.length =
      (table_offsets (Fixture.stream Fixture.repeated_offset 5).bytes 0 2).dedup.length ∧
    (∀ i, (∃ s, Fixture.repeated_offset_pool.get_string_from_order i = some s) ↔
      i < (table_offsets (Fixture.stream Fixture.repeated_offset 5).bytes 0 2).dedup.length) ∧
    ((∀ i, i < 2 → ∃ s, Fixture.repeated_offset_pool.get_string_from_order i = some s) ↔
      (table_offsets (Fixture.stream Fixture.repeated_offset 5).bytes 0 2).Nodup) :=
  ⟨rfl,
   get_string_from_order_present_iff Fixture.codec (Fixture.stream Fixture.repeated_offset 5) 12
     2 0 Fixture.repeated_offset_pool _ rfl⟩

/-! ## C15: queries never fail -/

/-- C15. On a successfully built prototype pool, `get_proto_by_order(pos)` is
`nullptr` exactly when `pos >= get_number_of_protos()`. On a successfully built
string pool, `get_string_from_order(pos)` is `nullptr` for every
`pos >= get_number_of_strings()`, `get_string_from_offset(o)` is `nullptr` for
every `o` that is not an offset of the table, and `get_string_from_order` never
reads its order vector outside its bounds: for every `pos` the run with the
vector access observed ends with a returned pointer, the one
`get_string_from_order(pos)` returns, and never in an out-of-range access. -/
theorem queries_are_total {τ : Type} (codec : StringCodec) (f g : IFStream)
    (file_size number_of_strings strings_offsets number_of_protos offset : Nat)
    (dex_strings : DexStrings) (dex_types : DexTypes τ) :
    (∀ pool g1, DexProtos.new g file_size number_of_protos offset dex_strings dex_types
        = (.ok pool, g1) →
      ∀ pos, pool.get_proto_by_order pos = none ↔ pos ≥ pool.get_number_of_protos) ∧
    (∀ pool f1, DexStrings.new codec f file_size number_of_strings strings_offsets
        = (.ok pool, f1) →
      (∀ pos, pos ≥ pool.get_number_of_strings → pool.get_string_from_order pos = none) ∧
      (∀ o, o ∉ table_offsets f.bytes strings_offsets number_of_strings →
        pool.get_string_from_offset o = none) ∧
      (∀ pos, pool.get_string_from_order_checked pos =
        some (pool.get_string_from_order pos))) := by
  constructor
  · intro pool g1 h pos
    obtain ⟨-, -, ps, hlen, rfl, -⟩ := DexProtos_new_ok _ _ _ _ _ _ _ _ h
    simp only [DexProtos.get_proto_by_order, DexProtos.get_number_of_protos]
    constructor
    · intro hnone
      by_contra hc
      rw [if_neg (by omega), List.getElem?_eq_getElem (by omega)] at hnone
      cases hnone
    · intro hge
      rw [if_pos (by omega)]
  · intro pool f1 h
    obtain ⟨hlen, -, rfl⟩ := DexStrings_new_table _ _ _ _ _ _ _ h
    have hsize := insert_all_length (codec f.bytes)
      (table_offsets f.bytes strings_offsets number_of_strings)
    have hle : (table_offsets f.bytes strings_offsets number_of_strings).dedup.length
        ≤ number_of_strings := by
      have := (List.dedup_sublist
        (table_offsets f.bytes strings_offsets number_of_strings)).length_le
      omega
    refine ⟨?_, ?_, ?_⟩
    · intro pos hpos
      simp only [DexStrings.get_number_of_strings] at hpos
      simp only [DexStrings.get_string_from_order, hsize]
      rw [if_pos (by omega)]
    · intro o ho
      simp only [DexStrings.get_string_from_offset]
      rw [map_find_eq_none_iff]
      obtain ⟨-, -, hmem⟩ := insert_all_spec (codec f.bytes)
        (table_offsets f.bytes strings_offsets number_of_strings) [] (by simp) (by simp)
      intro hc
      rcases (hmem o).1 hc with h1 | h1
      · simp at h1
      · exact ho h1
    · intro pos
      simp only [DexStrings.get_string_from_order_checked, DexStrings.get_string_from_order,
        hsize]
      by_cases hpos : pos ≥ (table_offsets f.bytes strings_offsets number_of_strings).dedup.length
      · rw [if_pos hpos, if_pos hpos]
      · rw [if_neg hpos, if_neg hpos]
        have : pos < (table_offsets f.bytes strings_offsets number_of_strings).length := by omega
        rw [List.getElem?_eq_getElem this]

/-- C15 at the pools of `two_protos` and `three_strings`: position 2 of the
two-entry prototype pool and position 3 of the three-entry string pool are
absent, as is offset 13, which the string table does not list; the order lookup
at position 3 returns without touching the order vector, and at position 2 it
reads the vector inside its bounds. -/
theorem queries_are_total_witness :
    (∃ pool g1,
      DexProtos.new (Fixture.stream Fixture.two_protos 7) 32 2 0 Fixture.three_strings_pool
          Fixture.types = (.ok pool, g1) ∧
      (pool.get_proto_by_order 2 = none ↔ 2 ≥ pool.get_number_of_protos)) ∧
    (DexStrings.new Fixture.codec (Fixture.stream Fixture.three_strings 5) 32 3 0 =
        (.ok Fixture.three_strings_pool,
         { bytes := Fixture.three_strings, pos := 5,
           trace := [.seek 0, .read 0 4, .read 4 4, .read 8 4, .seek 5] }) ∧
      Fixture.three_strings_pool.get_string_from_order 3 = none ∧
      Fixture.three_strings_pool.get_string_from_offset 13 = none ∧
      Fixture.three_strings_pool.get_string_from_order_checked 3 =
        some (Fixture.three_strings_pool.get_string_from_order 3) ∧
      Fixture.three_strings_pool.get_string_from_order_checked 2 =
        some (Fixture.three_strings_pool.get_string_from_order 2) ∧
      Fixture.three_strings_pool.get_string_from_order 2 = some "baz") :=
  ⟨⟨_, _, rfl,
    (queries_are_total Fixture.codec (Fixture.stream Fixture.three_strings 5)
      (Fixture.stream Fixture.two_protos 7) 32 3 0 2 0 Fixture.three_strings_pool
      Fixture.types).1 _ _ rfl 2⟩,
   ⟨rfl,
    ((queries_are_total Fixture.codec (Fixture.stream Fixture.three_strings 5)
      (Fixture.stream Fixture.two_protos 7) 32 3 0 2 0 Fixture.three_strings_pool
      Fixture.types).2 _ _ rfl).1 3 (by decide),
    ((queries_are_total Fixture.codec (Fixture.stream Fixture.three_strings 5)
      (Fixture.stream Fixture.two_protos 7) 32 3 0 2 0 Fixture.three_strings_pool
      Fixture.types).2 _ _ rfl).2.1 13 (by decide),
    ((queries_are_total Fixture.codec (Fixture.stream Fixture.three_strings 5)
      (Fixture.stream Fixture.two_protos 7) 32 3 0 2 0 Fixture.three_strings_pool
      Fixture.types).2 _ _ rfl).2.2 3,
    ((queries_are_total Fixture.codec (Fixture.stream Fixture.three_strings 5)
      (Fixture.stream Fixture.two_protos 7) 32 3 0 2 0 Fixture.three_strings_pool
      Fixture.types).2 _ _ rfl).2.2 2,
    rfl⟩⟩

/-! ## C16: the dumps and the pool order -/

/-- C16, evaluated where the code departs from it. The table of
`descending_offsets` lists offset 11 (hexadecimal `b`, text "b") before offset 8
(text "a"), and the pool is built successfully. Both dumps walk the
offset-keyed map instead of the order vector: the human-readable dump prints
the running index 0 beside offset 8 and "a", and the XML dump emits that record
first, while table entry 0 and `get_string_from_order(0)` are offset 11 and
"b". So neither dump emits the records in pool order. -/
theorem dumps_not_in_table_order :
    DexStrings.new Fixture.codec (Fixture.stream Fixture.descending_offsets 5) 14 2 0 =
        (.ok Fixture.descending_offsets_pool,
         { bytes := Fixture.descending_offsets, pos := 5,
           trace := [.seek 0, .read 0 4, .read 4 4, .seek 5] }) ∧
    Fixture.descending_offsets_pool.ostream_insert =
      ["=========== DEX Strings ===========", "String (0): 8->\"a\"",
       "String (1): b->\"b\""] ∧
    Fixture.descending_offsets_pool.fstream_insert =
      ["<strings>", "\t<string>", "\t\t<offset>8</offset>", "\t\t<value>a</value>",
       "\t</string>", "\t<string>", "\t\t<offset>b</offset>", "\t\t<value>b</value>",
       "\t</string>", "</strings>"] ∧
    read_at Fixture.descending_offsets (0 + 4 * 0) 4 = some 11 ∧
    Fixture.descending_offsets_pool.get_string_from_order 0 = some "b" ∧
    ¬ (∀ k, k < 2 → ∃ o s, read_at Fixture.descending_offsets (0 + 4 * k) 4 = some o ∧
        Fixture.descending_offsets_pool.get_string_from_order k = some s ∧
        Fixture.descending_offsets_pool.ostream_insert[k + 1]? =
          some (DexStrings.human_record k o s)) ∧
    ¬ (∀ k, k < 2 → ∃ o s, read_at Fixture.descending_offsets (0 + 4 * k) 4 = some o ∧
        Fixture.descending_offsets_pool.get_string_from_order k = some s ∧
        (Fixture.descending_offsets_pool.fstream_insert.drop (1 + 4 * k)).take 4 =
          DexStrings.xml_record o s) := by
  have h11 : read_at Fixture.descending_offsets (0 + 4 * 0) 4 = some 11 := rfl
  have hb : Fixture.descending_offsets_pool.get_string_from_order 0 = some "b" := rfl
  refine ⟨rfl, rfl, rfl, h11, hb, ?_, ?_⟩
  · intro h
    obtain ⟨o, s, ho, hs, hline⟩ := h 0 (by decide)
    rw [h11] at ho
    rw [hb] at hs
    obtain rfl := Option.some.inj ho
    obtain rfl := Option.some.inj hs
    exact absurd hline (by decide)
  · intro h
    obtain ⟨o, s, ho, hs, hrec⟩ := h 0 (by decide)
    rw [h11] at ho
    rw [hb] at hs
    obtain rfl := Option.some.inj ho
    obtain rfl := Option.some.inj hs
    exact absurd hrec (by decide)

end DEX
end KUNAI
